import Mathlib

/-!
Shallow embedding of the unostat telemetry agent (Go) for spec verification.

Modelling conventions:
* Go `float64` values are modelled as exact rationals (`ℚ`).  Every claim
  checked here is about the exact arithmetic formulas of the code, and all
  concrete inputs used below are exactly representable in binary floating
  point, so the rational model agrees with the Go execution on them.
* Go `uint64` counters are modelled as `ℕ` together with explicit wraparound
  operations modulo `2^64` (`u64sub`, `u64add`, `u64mul`), mirroring Go's
  defined wraparound semantics for unsigned integers.
* Go `time.Time` is modelled as a rational number of seconds; the `time.Time`
  zero value is modelled as `0` and `IsZero` tests for it.  `Sub` followed by
  `Seconds()` / `Milliseconds()` becomes exact subtraction, respectively
  truncation toward zero of the millisecond difference (Go's integer division
  of the nanosecond count truncates toward zero).
* A value of type `Option ℚ` models a `float64` that may be NaN
  (`none` = NaN), as used by the CSV columnar store.
-/

set_option maxHeartbeats 1000000

namespace Unostat

/-- Model of Go `time.Time`: seconds since the epoch, with the zero value
modelled as `0`. -/
structure GoTime where
  sec : ℚ
deriving DecidableEq, Repr

/-- Model of `time.Time.IsZero`. -/
def GoTime.isZero (t : GoTime) : Bool := t.sec == 0

/-- Model of `current.Sub(prev).Seconds()`: exact difference in seconds. -/
def GoTime.subSeconds (t u : GoTime) : ℚ := t.sec - u.sec

/-- Truncation toward zero, as used by Go integer conversion and
`Duration.Milliseconds`. -/
def truncQ (q : ℚ) : ℤ := if 0 ≤ q then ⌊q⌋ else ⌈q⌉

/-- Model of `current.Sub(prev).Milliseconds()`. -/
def GoTime.subMilliseconds (t u : GoTime) : ℤ := truncQ ((t.sec - u.sec) * 1000)

/-- The modulus of Go `uint64` arithmetic. -/
def U64MOD : ℕ := 2 ^ 64

/-- Go `uint64` subtraction `a - b` (wraparound modulo `2^64`). -/
def u64sub (a b : ℕ) : ℕ := (a % U64MOD + U64MOD - b % U64MOD) % U64MOD

/-- Go `uint64` addition (wraparound modulo `2^64`). -/
def u64add (a b : ℕ) : ℕ := (a + b) % U64MOD

/-- Go `uint64` multiplication (wraparound modulo `2^64`). -/
def u64mul (a b : ℕ) : ℕ := (a * b) % U64MOD

/-- Embedding of `metrics.CPUTimeStats` (pkg/metrics): all CPU-time buckets
are Go `float64` values. -/
structure CPUTimeStats where
  user : ℚ
  system : ℚ
  idle : ℚ
  iowait : ℚ
  irq : ℚ
  softirq : ℚ
  steal : ℚ
  guest : ℚ
  guestNice : ℚ
  timestamp : GoTime
deriving DecidableEq, Repr

/-- Embedding of `metrics.DiskIOStats`: counters are Go `uint64`. -/
structure DiskIOStats where
  readCount : ℕ
  writeCount : ℕ
  readTime : ℕ
  writeTime : ℕ
  ioTime : ℕ
  timestamp : GoTime
deriving DecidableEq, Repr

/-- Embedding of `metrics.NetworkIOStats`: byte counters are Go `uint64`. -/
structure NetworkIOStats where
  bytesSent : ℕ
  bytesRecv : ℕ
  timestamp : GoTime
deriving DecidableEq, Repr

/-- Embedding of `metrics.CalculateCPUUtilization`. -/
def CalculateCPUUtilization (prev current : CPUTimeStats) : ℚ :=
  if prev.timestamp.isZero then 0
  else
    let prevTotal := prev.user + prev.system + prev.idle + prev.iowait +
      prev.irq + prev.softirq + prev.steal
    let currentTotal := current.user + current.system + current.idle +
      current.iowait + current.irq + current.softirq + current.steal
    let deltaTotal := currentTotal - prevTotal
    let deltaIdle := current.idle - prev.idle
    if deltaTotal ≤ 0 then 0
    else 100 * (1 - deltaIdle / deltaTotal)

/-- Embedding of `metrics.CalculateCPUIOWait`. -/
def CalculateCPUIOWait (prev current : CPUTimeStats) : ℚ :=
  if prev.timestamp.isZero then -1
  else if current.iowait < 0 then -1
  else
    let prevTotal := prev.user + prev.system + prev.idle + prev.iowait +
      prev.irq + prev.softirq + prev.steal
    let currentTotal := current.user + current.system + current.idle +
      current.iowait + current.irq + current.softirq + current.steal
    let deltaTotal := currentTotal - prevTotal
    let deltaIOWait := current.iowait - prev.iowait
    if deltaTotal ≤ 0 then 0
    else 100 * (deltaIOWait / deltaTotal)

/-- Embedding of `metrics.CalculateDiskUtilization`. -/
def CalculateDiskUtilization (prev current : DiskIOStats) : ℚ :=
  if prev.timestamp.isZero then 0
  else
    let deltaTime := GoTime.subMilliseconds current.timestamp prev.timestamp
    if deltaTime ≤ 0 then 0
    else
      let deltaIOTime : ℚ := (u64sub current.ioTime prev.ioTime : ℚ)
      let utilization := deltaIOTime / (deltaTime : ℚ) * 100
      if utilization > 100 then 100 else utilization

/-- Embedding of `metrics.CalculateDiskAwait`. -/
def CalculateDiskAwait (prev current : DiskIOStats) : ℚ :=
  if prev.timestamp.isZero then 0
  else
    let deltaReadCount := u64sub current.readCount prev.readCount
    let deltaWriteCount := u64sub current.writeCount prev.writeCount
    let totalOps := u64add deltaReadCount deltaWriteCount
    if totalOps == 0 then 0
    else
      let deltaReadTime := u64sub current.readTime prev.readTime
      let deltaWriteTime := u64sub current.writeTime prev.writeTime
      let totalTime := u64add deltaReadTime deltaWriteTime
      (totalTime : ℚ) / (totalOps : ℚ)

/-- Embedding of `metrics.CalculateDiskIOPS`. -/
def CalculateDiskIOPS (prev current : DiskIOStats) : ℚ :=
  if prev.timestamp.isZero then 0
  else
    let deltaTime := GoTime.subSeconds current.timestamp prev.timestamp
    if deltaTime ≤ 0 then 0
    else
      let deltaReadCount := u64sub current.readCount prev.readCount
      let deltaWriteCount := u64sub current.writeCount prev.writeCount
      let totalOps := u64add deltaReadCount deltaWriteCount
      (totalOps : ℚ) / deltaTime

/-- Embedding of `metrics.CalculateNetworkBandwidth`. -/
def CalculateNetworkBandwidth (prev current : NetworkIOStats) : ℚ :=
  if prev.timestamp.isZero then 0
  else
    let deltaTime := GoTime.subSeconds current.timestamp prev.timestamp
    if deltaTime ≤ 0 then 0
    else
      let deltaSent := u64sub current.bytesSent prev.bytesSent
      let deltaRecv := u64sub current.bytesRecv prev.bytesRecv
      let totalBytes := u64add deltaSent deltaRecv
      (u64mul totalBytes 8 : ℚ) / deltaTime

/-- Concrete CPU example from the spec: prev snapshot. -/
def cpuPrevEx : CPUTimeStats :=
  { user := 100, system := 50, idle := 800, iowait := 10,
    irq := 0, softirq := 0, steal := 0, guest := 0, guestNice := 0,
    timestamp := ⟨1⟩ }

/-- Concrete CPU example from the spec: current snapshot. -/
def cpuCurrEx : CPUTimeStats :=
  { user := 110, system := 60, idle := 810, iowait := 15,
    irq := 0, softirq := 0, steal := 0, guest := 0, guestNice := 0,
    timestamp := ⟨2⟩ }

/-- Disk example from the spec: prev busy time 1000 ms at second 1. -/
def diskPrevEx : DiskIOStats :=
  { readCount := 0, writeCount := 0, readTime := 0, writeTime := 0,
    ioTime := 1000, timestamp := ⟨1⟩ }

/-- Disk example from the spec: current busy time 2500 ms one second later. -/
def diskCurrEx : DiskIOStats :=
  { readCount := 0, writeCount := 0, readTime := 0, writeTime := 0,
    ioTime := 2500, timestamp := ⟨2⟩ }

/-- Network example with a reset counter: previously 1000 bytes sent. -/
def netPrevReset : NetworkIOStats :=
  { bytesSent := 1000, bytesRecv := 0, timestamp := ⟨1⟩ }

/-- Network example with a reset counter: the sent counter dropped to 0. -/
def netCurrReset : NetworkIOStats :=
  { bytesSent := 0, bytesRecv := 0, timestamp := ⟨2⟩ }

/-- C1: with a prior sample, CPU utilization is `100 × (1 − Δidle/Δtotal)`
when `Δtotal > 0` (totals over user, system, idle, iowait, irq, softirq and
steal, guest buckets excluded) and `0` when `Δtotal ≤ 0`; the spec's concrete
example evaluates to `500/7 ≈ 71.428571`. -/
theorem C1_cpu_utilization_formula
    (prev current : CPUTimeStats)
    (h : prev.timestamp.isZero = false) :
    ((current.user + current.system + current.idle + current.iowait +
        current.irq + current.softirq + current.steal) -
      (prev.user + prev.system + prev.idle + prev.iowait +
        prev.irq + prev.softirq + prev.steal) ≤ 0 →
        CalculateCPUUtilization prev current = 0) ∧
    (0 < (current.user + current.system + current.idle + current.iowait +
        current.irq + current.softirq + current.steal) -
      (prev.user + prev.system + prev.idle + prev.iowait +
        prev.irq + prev.softirq + prev.steal) →
        CalculateCPUUtilization prev current =
          100 * (1 - (current.idle - prev.idle) /
            ((current.user + current.system + current.idle + current.iowait +
                current.irq + current.softirq + current.steal) -
              (prev.user + prev.system + prev.idle + prev.iowait +
                prev.irq + prev.softirq + prev.steal)))) ∧
    CalculateCPUUtilization cpuPrevEx cpuCurrEx = 500 / 7 := by
  refine ⟨?_, ?_, ?_⟩
  · intro hle
    simp [CalculateCPUUtilization, h, hle]
  · intro hpos
    simp [CalculateCPUUtilization, h, not_le.mpr hpos]
  · norm_num [CalculateCPUUtilization, cpuPrevEx, cpuCurrEx, GoTime.isZero]

/-- Witness for C1 at the spec's concrete example. -/
theorem C1_cpu_utilization_formula_witness :
    CalculateCPUUtilization cpuPrevEx cpuCurrEx = 500 / 7 :=
  (C1_cpu_utilization_formula cpuPrevEx cpuCurrEx (by norm_num [cpuPrevEx, GoTime.isZero])).2.2

/-- C9: with no prior sample (zero previous timestamp), every delta-engine
function returns its documented baseline: 0, except CPU iowait which
returns −1. -/
theorem C9_no_prior_sample_baselines
    (pc cc : CPUTimeStats) (pd cd : DiskIOStats) (pn cn : NetworkIOStats)
    (hc : pc.timestamp.isZero = true)
    (hd : pd.timestamp.isZero = true)
    (hn : pn.timestamp.isZero = true) :
    CalculateCPUUtilization pc cc = 0 ∧
    CalculateCPUIOWait pc cc = -1 ∧
    CalculateDiskUtilization pd cd = 0 ∧
    CalculateDiskAwait pd cd = 0 ∧
    CalculateDiskIOPS pd cd = 0 ∧
    CalculateNetworkBandwidth pn cn = 0 := by
  refine ⟨?_, ?_, ?_, ?_, ?_, ?_⟩ <;>
    simp [CalculateCPUUtilization, CalculateCPUIOWait, CalculateDiskUtilization,
      CalculateDiskAwait, CalculateDiskIOPS, CalculateNetworkBandwidth, hc, hd, hn]

/-- Zero-timestamp CPU stats used by the C9 witness. -/
def cpuZeroEx : CPUTimeStats :=
  { user := 0, system := 0, idle := 0, iowait := 0, irq := 0, softirq := 0,
    steal := 0, guest := 0, guestNice := 0, timestamp := ⟨0⟩ }

/-- Zero-timestamp disk stats used by the C9 witness. -/
def diskZeroEx : DiskIOStats :=
  { readCount := 0, writeCount := 0, readTime := 0, writeTime := 0,
    ioTime := 0, timestamp := ⟨0⟩ }

/-- Zero-timestamp network stats used by the C9 witness. -/
def netZeroEx : NetworkIOStats :=
  { bytesSent := 0, bytesRecv := 0, timestamp := ⟨0⟩ }

/-- Witness for C9 at concrete zero-timestamp snapshots. -/
theorem C9_no_prior_sample_baselines_witness :
    CalculateCPUUtilization cpuZeroEx cpuCurrEx = 0 ∧
    CalculateCPUIOWait cpuZeroEx cpuCurrEx = -1 ∧
    CalculateDiskUtilization diskZeroEx diskCurrEx = 0 ∧
    CalculateDiskAwait diskZeroEx diskCurrEx = 0 ∧
    CalculateDiskIOPS diskZeroEx diskCurrEx = 0 ∧
    CalculateNetworkBandwidth netZeroEx netCurrReset = 0 :=
  C9_no_prior_sample_baselines cpuZeroEx cpuCurrEx diskZeroEx diskCurrEx
    netZeroEx netCurrReset
    (by norm_num [cpuZeroEx, GoTime.isZero])
    (by norm_num [diskZeroEx, GoTime.isZero])
    (by norm_num [netZeroEx, GoTime.isZero])

/-- C2: with a prior sample and monotonically non-decreasing counters, the
percentage metrics stay within `[0,100]` (CPU iowait may instead be the −1
sentinel), and disk utilization is clamped to exactly 100 when the raw ratio
exceeds 1, as in the spec's busy=1000→2500 ms over 1000 ms example. -/
theorem C2_percentages_within_range
    (pc cc : CPUTimeStats) (pd cd : DiskIOStats)
    (hpc : pc.timestamp.isZero = false)
    (hpd : pd.timestamp.isZero = false)
    (hmono : pc.user ≤ cc.user ∧ pc.system ≤ cc.system ∧ pc.idle ≤ cc.idle ∧
      pc.iowait ≤ cc.iowait ∧ pc.irq ≤ cc.irq ∧ pc.softirq ≤ cc.softirq ∧
      pc.steal ≤ cc.steal) :
    (0 ≤ CalculateCPUUtilization pc cc ∧ CalculateCPUUtilization pc cc ≤ 100) ∧
    (CalculateCPUIOWait pc cc = -1 ∨
      (0 ≤ CalculateCPUIOWait pc cc ∧ CalculateCPUIOWait pc cc ≤ 100)) ∧
    (0 ≤ CalculateDiskUtilization pd cd ∧ CalculateDiskUtilization pd cd ≤ 100) ∧
    CalculateDiskUtilization diskPrevEx diskCurrEx = 100 := by
  obtain ⟨h1, h2, h3, h4, h5, h6, h7⟩ := hmono
  refine ⟨?_, ?_, ?_, ?_⟩
  · rw [CalculateCPUUtilization]
    simp only [hpc, Bool.false_eq_true, if_false]
    set dt := (cc.user + cc.system + cc.idle + cc.iowait + cc.irq + cc.softirq +
      cc.steal) - (pc.user + pc.system + pc.idle + pc.iowait + pc.irq +
      pc.softirq + pc.steal) with hdt
    by_cases hle : dt ≤ 0
    · simp [hle]
    · have hpos : 0 < dt := lt_of_not_le hle
      have hdi0 : 0 ≤ cc.idle - pc.idle := by linarith
      have hdile : cc.idle - pc.idle ≤ dt := by rw [hdt]; linarith
      have hq0 : 0 ≤ (cc.idle - pc.idle) / dt := div_nonneg hdi0 (le_of_lt hpos)
      have hq1 : (cc.idle - pc.idle) / dt ≤ 1 := (div_le_one hpos).mpr hdile
      simp only [hle, if_false]
      constructor <;> nlinarith
  · rw [CalculateCPUIOWait]
    simp only [hpc, Bool.false_eq_true, if_false]
    by_cases hneg : cc.iowait < 0
    · simp [hneg]
    · right
      simp only [hneg, if_false]
      set dt := (cc.user + cc.system + cc.idle + cc.iowait + cc.irq + cc.softirq +
        cc.steal) - (pc.user + pc.system + pc.idle + pc.iowait + pc.irq +
        pc.softirq + pc.steal) with hdt
      by_cases hle : dt ≤ 0
      · simp [hle]
      · have hpos : 0 < dt := lt_of_not_le hle
        have hdw0 : 0 ≤ cc.iowait - pc.iowait := by linarith
        have hdwle : cc.iowait - pc.iowait ≤ dt := by rw [hdt]; linarith
        have hq0 : 0 ≤ (cc.iowait - pc.iowait) / dt := div_nonneg hdw0 (le_of_lt hpos)
        have hq1 : (cc.iowait - pc.iowait) / dt ≤ 1 := (div_le_one hpos).mpr hdwle
        simp only [hle, if_false]
        constructor <;> nlinarith
  · rw [CalculateDiskUtilization]
    simp only [hpd, Bool.false_eq_true, if_false]
    set dm := GoTime.subMilliseconds cd.timestamp pd.timestamp with hdm
    by_cases hle : dm ≤ 0
    · simp [hle]
    · have hpos : (0 : ℚ) < (dm : ℚ) := by
        exact_mod_cast lt_of_not_le hle
      have hio0 : (0 : ℚ) ≤ (u64sub cd.ioTime pd.ioTime : ℚ) := by positivity
      have hutil0 : (0 : ℚ) ≤ (u64sub cd.ioTime pd.ioTime : ℚ) / (dm : ℚ) * 100 := by
        have := div_nonneg hio0 (le_of_lt hpos)
        nlinarith
      simp only [hle, if_false]
      by_cases hcap : (u64sub cd.ioTime pd.ioTime : ℚ) / (dm : ℚ) * 100 > 100
      · simp [hcap]
      · simp only [hcap, if_false]
        exact ⟨hutil0, le_of_not_lt hcap⟩
  · rw [CalculateDiskUtilization]
    have hms : GoTime.subMilliseconds diskCurrEx.timestamp diskPrevEx.timestamp =
        1000 := by
      have h1000 : ((2 : ℚ) - 1) * 1000 = ((1000 : ℤ) : ℚ) := by norm_num
      simp [GoTime.subMilliseconds, truncQ, diskPrevEx, diskCurrEx, h1000,
        Int.floor_intCast]
    have hsub : u64sub diskCurrEx.ioTime diskPrevEx.ioTime = 1500 := by
      norm_num [u64sub, U64MOD, diskPrevEx, diskCurrEx]
    rw [hms, hsub]
    norm_num [diskPrevEx, GoTime.isZero]

/-- Witness for C2 at the spec's concrete disk example and the spec's concrete
CPU example. -/
theorem C2_percentages_within_range_witness :
    (0 ≤ CalculateCPUUtilization cpuPrevEx cpuCurrEx ∧
      CalculateCPUUtilization cpuPrevEx cpuCurrEx ≤ 100) ∧
    (CalculateCPUIOWait cpuPrevEx cpuCurrEx = -1 ∨
      (0 ≤ CalculateCPUIOWait cpuPrevEx cpuCurrEx ∧
        CalculateCPUIOWait cpuPrevEx cpuCurrEx ≤ 100)) ∧
    (0 ≤ CalculateDiskUtilization diskPrevEx diskCurrEx ∧
      CalculateDiskUtilization diskPrevEx diskCurrEx ≤ 100) ∧
    CalculateDiskUtilization diskPrevEx diskCurrEx = 100 :=
  C2_percentages_within_range cpuPrevEx cpuCurrEx diskPrevEx diskCurrEx
    (by norm_num [cpuPrevEx, GoTime.isZero])
    (by norm_num [diskPrevEx, GoTime.isZero])
    (by norm_num [cpuPrevEx, cpuCurrEx])

/-- Helper: cast of `u64sub` to `ℤ` is subtraction modulo `2^64`. -/
theorem u64sub_cast (a b : ℕ) (ha : a < U64MOD) (hb : b < U64MOD) :
    ((u64sub a b : ℕ) : ℤ) = ((a : ℤ) - b) % (U64MOD : ℤ) := by
  rw [u64sub, Nat.mod_eq_of_lt ha, Nat.mod_eq_of_lt hb]
  have hble : b ≤ a + U64MOD := le_trans (le_of_lt hb) (Nat.le_add_left _ _)
  push_cast [Int.ofNat_sub hble]
  rw [show (a : ℤ) + U64MOD - b = (a - b) + 1 * U64MOD by ring,
    Int.add_mul_emod_self]

/-- Helper: cast of `u64add` to `ℤ` is addition modulo `2^64`. -/
theorem u64add_cast (a b : ℕ) :
    ((u64add a b : ℕ) : ℤ) = ((a : ℤ) + b) % (U64MOD : ℤ) := by
  rw [u64add]; push_cast; rfl

/-- Helper: cast of `u64mul` to `ℤ` is multiplication modulo `2^64`. -/
theorem u64mul_cast (a b : ℕ) :
    ((u64mul a b : ℕ) : ℤ) = ((a : ℤ) * b) % (U64MOD : ℤ) := by
  rw [u64mul]; push_cast; rfl

/-- C10: with a prior sample and a positive time delta, network bandwidth is
the wrapped `uint64` quantity `((ΔSent + ΔRecv) × 8) mod 2^64` divided by the
time delta in seconds; with a reset sent counter (1000 → 0 over one second)
this yields the huge positive value `2^64 − 8000`, not 0. -/
theorem C10_network_bandwidth_wraparound
    (prev current : NetworkIOStats)
    (h : prev.timestamp.isZero = false)
    (hdt : 0 < current.timestamp.sec - prev.timestamp.sec)
    (hps : prev.bytesSent < U64MOD) (hcs : current.bytesSent < U64MOD)
    (hpr : prev.bytesRecv < U64MOD) (hcr : current.bytesRecv < U64MOD) :
    CalculateNetworkBandwidth prev current =
      (((((current.bytesSent : ℤ) - prev.bytesSent +
          ((current.bytesRecv : ℤ) - prev.bytesRecv)) * 8) %
            (U64MOD : ℤ)).toNat : ℚ) /
        (current.timestamp.sec - prev.timestamp.sec) ∧
    CalculateNetworkBandwidth netPrevReset netCurrReset = 2 ^ 64 - 8000 ∧
    0 < CalculateNetworkBandwidth netPrevReset netCurrReset := by
  have hval : CalculateNetworkBandwidth netPrevReset netCurrReset =
      2 ^ 64 - 8000 := by
    have hn : u64mul (u64add (u64sub 0 1000) (u64sub 0 0)) 8 =
        18446744073709543616 := by decide
    rw [CalculateNetworkBandwidth]
    norm_num [netPrevReset, netCurrReset, GoTime.isZero, GoTime.subSeconds, hn]
  refine ⟨?_, hval, by rw [hval]; norm_num⟩
  rw [CalculateNetworkBandwidth]
  simp only [h, Bool.false_eq_true, if_false, GoTime.subSeconds,
    not_le.mpr hdt, if_false]
  congr 1
  have hcast : ((u64mul (u64add (u64sub current.bytesSent prev.bytesSent)
      (u64sub current.bytesRecv prev.bytesRecv)) 8 : ℕ) : ℤ) =
      ((((current.bytesSent : ℤ) - prev.bytesSent +
        ((current.bytesRecv : ℤ) - prev.bytesRecv)) * 8) % (U64MOD : ℤ)) := by
    rw [u64mul_cast, u64add_cast, u64sub_cast _ _ hcs hps,
      u64sub_cast _ _ hcr hpr]
    conv_rhs => rw [Int.mul_emod]
    conv_lhs => rw [Int.mul_emod, Int.emod_emod_of_dvd _ dvd_rfl, ← Int.add_emod]
    norm_num
  have htoNat : (u64mul (u64add (u64sub current.bytesSent prev.bytesSent)
      (u64sub current.bytesRecv prev.bytesRecv)) 8 : ℕ) =
      ((((current.bytesSent : ℤ) - prev.bytesSent +
        ((current.bytesRecv : ℤ) - prev.bytesRecv)) * 8) % (U64MOD : ℤ)).toNat := by
    omega
  exact_mod_cast congrArg (fun n => ((n : ℕ) : ℚ)) htoNat

/-- Witness for C10 at the concrete counter-reset example. -/
theorem C10_network_bandwidth_wraparound_witness :
    CalculateNetworkBandwidth netPrevReset netCurrReset = 2 ^ 64 - 8000 :=
  (C10_network_bandwidth_wraparound netPrevReset netCurrReset
    (by norm_num [netPrevReset, GoTime.isZero])
    (by norm_num [netPrevReset, netCurrReset])
    (by norm_num [netPrevReset, U64MOD])
    (by norm_num [netCurrReset, U64MOD])
    (by norm_num [netPrevReset, U64MOD])
    (by norm_num [netCurrReset, U64MOD])).2.1

/-! ## Association-list model of Go maps -/

/-- Lookup in an association-list model of a Go map. -/
def alookup {α : Type} (l : List (String × α)) (k : String) : Option α :=
  match l with
  | [] => none
  | (k', v) :: rest => if k' = k then some v else alookup rest k

/-- Insertion (`m[k] = v`) in an association-list model of a Go map. -/
def ainsert {α : Type} (l : List (String × α)) (k : String) (v : α) :
    List (String × α) :=
  match l with
  | [] => [(k, v)]
  | (k', v') :: rest =>
    if k' = k then (k, v) :: rest else (k', v') :: ainsert rest k v

/-- Deletion (`delete(m, k)`) in an association-list model of a Go map. -/
def aerase {α : Type} (l : List (String × α)) (k : String) : List (String × α) :=
  match l with
  | [] => []
  | (k', v') :: rest => if k' = k then rest else (k', v') :: aerase rest k

/-! ## Embedding of the CSV time-series store (internal/server/csvdata.go) -/

/-- Embedding of the `MaxFiles` constant. -/
def MaxFiles : ℕ := 20

/-- Embedding of `server.CSVFile` metadata. -/
structure CSVFile where
  id : String
  name : String
  path : String
  columns : List String
  rowCount : ℕ
  minTime : GoTime
  maxTime : GoTime
  isLoaded : Bool
deriving DecidableEq, Repr

/-- Embedding of `server.ColumnData`: `timestamps` holds Unix-second
timestamps, `values` maps a column name to its aligned value array
(`none` models a stored NaN). -/
structure ColumnData where
  timestamps : List ℤ
  values : List (String × List (Option ℚ))
deriving DecidableEq, Repr

/-- Embedding of the mutable state of `server.CSVDataService`. -/
structure CSVDataService where
  files : List (String × CSVFile)
  columnData : List (String × ColumnData)
deriving DecidableEq, Repr

/-- Embedding of `CSVDataService.LoadFile`.  The file-system interaction of
`processCSVFile` is abstracted as the explicit parse outcome `proc`; the Go
control flow around it is mirrored.  The function returns the updated state
together with the returned error (a `none` error means success); every error
path in the Go code returns before mutating the maps, which the model makes
explicit by returning the input state there. -/
def LoadFile (s : CSVDataService) (id name path : String)
    (proc : Except String (ColumnData × CSVFile)) :
    CSVDataService × Option String :=
  if s.files.length ≥ MaxFiles then
    (s, some "maximum number of files reached (20), please delete some files first")
  else
    match proc with
    | .error e => (s, some e)
    | .ok (parsedCols, fileMeta0) =>
      let fileMeta := { fileMeta0 with isLoaded := true }
      let loadedCount := (s.files.filter (fun f => f.2.isLoaded)).length
      if loadedCount ≥ MaxFiles then
        (s, some "maximum number of loaded files reached (20) during processing")
      else
        ({ files := ainsert s.files id fileMeta,
           columnData := ainsert s.columnData id parsedCols }, none)

/-- Embedding of `CSVDataService.RegisterFile`. -/
def RegisterFile (s : CSVDataService) (id name path : String) : CSVDataService :=
  match alookup s.files id with
  | some _ => s
  | none =>
    let fresh : CSVFile :=
      { id := id, name := name, path := path, columns := [], rowCount := 0,
        minTime := ⟨0⟩, maxTime := ⟨0⟩, isLoaded := false }
    { s with files := ainsert s.files id fresh }

/-- Embedding of `CSVDataService.LoadFileContent` (same abstraction of
`processCSVFile` as in `LoadFile`). -/
def LoadFileContent (s : CSVDataService) (id : String)
    (proc : Except String (ColumnData × CSVFile)) :
    CSVDataService × Option String :=
  match alookup s.files id with
  | none => (s, some ("file not found: " ++ id))
  | some fileMeta =>
    if fileMeta.isLoaded then (s, none)
    else
      let loadedCount := (s.files.filter (fun f => f.2.isLoaded)).length
      if loadedCount ≥ MaxFiles then
        (s, some "maximum number of loaded files reached (20)")
      else
        match proc with
        | .error e => (s, some e)
        | .ok (parsedCols, newMeta0) =>
          ({ files := ainsert s.files id { newMeta0 with isLoaded := true },
             columnData := ainsert s.columnData id parsedCols }, none)

/-- Embedding of `CSVDataService.DeleteFile`. -/
def DeleteFile (s : CSVDataService) (id : String) :
    CSVDataService × Option String :=
  match alookup s.files id with
  | none => (s, some ("file not found: " ++ id))
  | some _ =>
    ({ files := aerase s.files id, columnData := aerase s.columnData id }, none)

/-- Helper: a key absent from the key list is not found by `alookup`. -/
theorem alookup_eq_none_of_not_mem {α : Type} (l : List (String × α)) (k : String)
    (h : k ∉ l.map Prod.fst) : alookup l k = none := by
  induction l with
  | nil => rfl
  | cons p rest ih =>
    obtain ⟨k', v⟩ := p
    have hne : k' ≠ k := by
      intro hk; exact h (by simp [hk])
    rw [alookup, if_neg hne]
    exact ih (fun hm => h (by simp [hm]))

/-- Helper: erasing a key removes it, provided the key list has no
duplicates (the Go map invariant). -/
theorem alookup_aerase_self {α : Type} (l : List (String × α)) (k : String)
    (hnd : (l.map Prod.fst).Nodup) : alookup (aerase l k) k = none := by
  induction l with
  | nil => rfl
  | cons p rest ih =>
    obtain ⟨k', v⟩ := p
    simp only [List.map_cons, List.nodup_cons] at hnd
    by_cases h : k' = k
    · rw [aerase, if_pos h]
      exact alookup_eq_none_of_not_mem rest k (h ▸ hnd.1)
    · rw [aerase, if_neg h, alookup, if_neg h]
      exact ih hnd.2

/-- Helper: erasing one key leaves lookups of other keys unchanged. -/
theorem alookup_aerase_ne {α : Type} (l : List (String × α)) (k k' : String)
    (h : k' ≠ k) : alookup (aerase l k) k' = alookup l k' := by
  induction l with
  | nil => rfl
  | cons p rest ih =>
    obtain ⟨ka, v⟩ := p
    by_cases hk : ka = k
    · rw [aerase, if_pos hk, alookup, if_neg (by rw [hk]; exact fun hh => h hh.symm)]
    · by_cases hk' : ka = k'
      · rw [aerase, if_neg hk, alookup, if_pos hk', alookup, if_pos hk']
      · rw [aerase, if_neg hk, alookup, if_neg hk', alookup, if_neg hk']
        exact ih

/-- C5 (amended): the loaded-file cap of 20 makes loading fail with a
descriptive "maximum number of files" error and leaves both maps unchanged;
`LoadFileContent` succeeds whenever fewer than 20 loaded entries exist, no
matter how many registered-but-unloaded entries are present; but `LoadFile`
gates on the TOTAL number of entries (loaded or not) in its initial check, so
it succeeds exactly when that total is below 20. -/
theorem C5_load_cap_amended :
    (∀ (s : CSVDataService) (id name path : String)
        (proc : Except String (ColumnData × CSVFile)),
      s.files.length ≥ MaxFiles →
      LoadFile s id name path proc =
        (s, some "maximum number of files reached (20), please delete some files first")) ∧
    (∀ (s : CSVDataService) (id : String)
        (proc : Except String (ColumnData × CSVFile)) (meta : CSVFile),
      alookup s.files id = some meta → meta.isLoaded = false →
      (s.files.filter (fun f => f.2.isLoaded)).length ≥ MaxFiles →
      LoadFileContent s id proc =
        (s, some "maximum number of loaded files reached (20)")) ∧
    (∀ (s : CSVDataService) (id : String) (cd : ColumnData) (fm : CSVFile)
        (meta : CSVFile),
      alookup s.files id = some meta → meta.isLoaded = false →
      (s.files.filter (fun f => f.2.isLoaded)).length < MaxFiles →
      (LoadFileContent s id (.ok (cd, fm))).2 = none) ∧
    (∀ (s : CSVDataService) (id name path : String) (cd : ColumnData)
        (fm : CSVFile),
      s.files.length < MaxFiles →
      (LoadFile s id name path (.ok (cd, fm))).2 = none) := by
  refine ⟨?_, ?_, ?_, ?_⟩
  · intro s id name path proc h
    rw [LoadFile.eq_def, if_pos h]
  · intro s id proc meta hm hnl h
    rw [LoadFileContent.eq_def]
    simp only [hm, hnl, Bool.false_eq_true, if_false, if_pos h]
  · intro s id cd fm meta hm hnl h
    rw [LoadFileContent.eq_def]
    simp only [hm, hnl, Bool.false_eq_true, if_false, if_neg (not_le.mpr h)]
  · intro s id name path cd fm h
    have hlc : (s.files.filter (fun f => f.2.isLoaded)).length < MaxFiles :=
      lt_of_le_of_lt (List.length_filter_le _ _) h
    rw [LoadFile.eq_def, if_neg (not_le.mpr h)]
    simp only [if_neg (not_le.mpr hlc)]

/-- Metadata of a registered-but-unloaded file, used in concrete states. -/
def unloadedMeta : CSVFile :=
  { id := "r", name := "r", path := "p", columns := [], rowCount := 0,
    minTime := ⟨0⟩, maxTime := ⟨0⟩, isLoaded := false }

/-- Store holding 20 registered-but-unloaded entries and no loaded entry. -/
def st20 : CSVDataService :=
  { files := (List.range 20).map (fun i => ("reg" ++ toString i, unloadedMeta)),
    columnData := [] }

/-- Metadata of a loaded file, used in concrete states. -/
def loadedMeta : CSVFile :=
  { id := "l", name := "l", path := "p", columns := ["Timestamp", "c"],
    rowCount := 1, minTime := ⟨0⟩, maxTime := ⟨0⟩, isLoaded := true }

/-- Store holding 20 loaded entries plus one registered-but-unloaded
entry. -/
def st20Loaded : CSVDataService :=
  { files := ("u", unloadedMeta) ::
      (List.range 20).map (fun i => ("ld" ++ toString i, loadedMeta)),
    columnData := [] }

/-- Witness for C5, exercising all four parts of the amended theorem: a
store full by total entry count refuses `LoadFile`; a store with 20 loaded
entries refuses `LoadFileContent` with the loaded-cap error and an unchanged
state; a store with 20 registered-but-unloaded entries and zero loaded ones
nevertheless accepts `LoadFileContent` of a registered entry; and `LoadFile`
succeeds when the total entry count is below 20. -/
theorem C5_load_cap_amended_witness :
    LoadFile st20 "new" "new.csv" "/tmp/new.csv"
        (.ok (⟨[], []⟩, unloadedMeta)) =
      (st20, some "maximum number of files reached (20), please delete some files first") ∧
    LoadFileContent st20Loaded "u" (.ok (⟨[], []⟩, unloadedMeta)) =
      (st20Loaded, some "maximum number of loaded files reached (20)") ∧
    (LoadFileContent st20 ("reg" ++ toString 0)
        (.ok (⟨[], []⟩, unloadedMeta))).2 = none ∧
    (LoadFile (⟨[], []⟩ : CSVDataService) "new" "new.csv" "/tmp/new.csv"
        (.ok (⟨[], []⟩, unloadedMeta))).2 = none := by
  refine ⟨?_, ?_, ?_, ?_⟩
  · exact C5_load_cap_amended.1 st20 "new" "new.csv" "/tmp/new.csv" _
      (by simp [st20, MaxFiles])
  · refine C5_load_cap_amended.2.1 st20Loaded "u" _ unloadedMeta
      (by rw [st20Loaded]; rfl) rfl ?_
    have hall : ∀ a ∈ (List.range 20).map
        (fun i => ("ld" ++ toString i, loadedMeta)),
        ((fun f : String × CSVFile => f.2.isLoaded) a) = true := by
      intro a ha
      rw [List.mem_map] at ha
      obtain ⟨i, _, rfl⟩ := ha
      rfl
    have hfilter : st20Loaded.files.filter (fun f => f.2.isLoaded) =
        (List.range 20).map (fun i => ("ld" ++ toString i, loadedMeta)) := by
      rw [st20Loaded]
      rw [List.filter_cons_of_neg (by simp [unloadedMeta]),
        List.filter_eq_self.mpr hall]
    rw [hfilter, List.length_map, List.length_range, MaxFiles]
  · refine C5_load_cap_amended.2.2.1 st20 ("reg" ++ toString 0) ⟨[], []⟩
      unloadedMeta unloadedMeta ?_ rfl ?_
    · simp [st20, alookup, List.range_succ]
    · have : st20.files.filter (fun f => f.2.isLoaded) = [] := by
        rw [List.filter_eq_nil_iff]
        intro a ha
        simp only [st20, List.mem_map, List.mem_range] at ha
        obtain ⟨i, _, rfl⟩ := ha
        simp [unloadedMeta]
      simp [this, MaxFiles]
  · exact C5_load_cap_amended.2.2.2 ⟨[], []⟩ "new" "new.csv" "/tmp/new.csv"
      ⟨[], []⟩ unloadedMeta (by decide)

/-- C5 counterexample: with 20 registered-but-unloaded entries and zero
loaded entries, `LoadFile` nevertheless fails, contradicting the claim that
`LoadFile` succeeds whenever fewer than 20 loaded entries exist. -/
theorem C5_counterexample :
    (st20.files.filter (fun f => f.2.isLoaded)).length = 0 ∧
    (LoadFile st20 "new" "new.csv" "/tmp/new.csv"
      (.ok (⟨[], []⟩, unloadedMeta))).2 ≠ none := by
  constructor
  · have : st20.files.filter (fun f => f.2.isLoaded) = [] := by
      rw [List.filter_eq_nil_iff]
      intro a ha
      simp only [st20, List.mem_map, List.mem_range] at ha
      obtain ⟨i, _, rfl⟩ := ha
      simp [unloadedMeta]
    simp [this]
  · have h20 : st20.files.length ≥ MaxFiles := by simp [st20, MaxFiles]
    rw [LoadFile.eq_def, if_pos h20]
    simp

/-- C6 (amended): store-level `DeleteFile` is NOT idempotent: an unknown id
yields a "file not found" error (with the state unchanged); a present id is
removed from both the metadata map and the columnar-data map, and other
entries are untouched. -/
theorem C6_delete_file_amended :
    (∀ (s : CSVDataService) (id : String),
      alookup s.files id = none →
      DeleteFile s id = (s, some ("file not found: " ++ id))) ∧
    (∀ (s : CSVDataService) (id : String) (meta : CSVFile),
      alookup s.files id = some meta →
      (s.files.map Prod.fst).Nodup →
      (s.columnData.map Prod.fst).Nodup →
      (DeleteFile s id).2 = none ∧
      alookup (DeleteFile s id).1.files id = none ∧
      alookup (DeleteFile s id).1.columnData id = none ∧
      (∀ k, k ≠ id →
        alookup (DeleteFile s id).1.files k = alookup s.files k ∧
        alookup (DeleteFile s id).1.columnData k = alookup s.columnData k)) := by
  constructor
  · intro s id h
    rw [DeleteFile, h]
  · intro s id meta hm hnd1 hnd2
    rw [DeleteFile, hm]
    exact ⟨rfl, alookup_aerase_self _ _ hnd1, alookup_aerase_self _ _ hnd2,
      fun k hk => ⟨alookup_aerase_ne _ _ _ hk, alookup_aerase_ne _ _ _ hk⟩⟩

/-- A one-entry store used in concrete delete examples. -/
def stOne : CSVDataService :=
  { files := [("f1", unloadedMeta)], columnData := [("f1", ⟨[], []⟩)] }

/-- Witness for C6: deleting an unknown id errors and preserves the state;
deleting the present id removes both entries. -/
theorem C6_delete_file_amended_witness :
    DeleteFile stOne "missing" = (stOne, some ("file not found: " ++ "missing")) ∧
    (DeleteFile stOne "f1").2 = none ∧
    alookup (DeleteFile stOne "f1").1.files "f1" = none ∧
    alookup (DeleteFile stOne "f1").1.columnData "f1" = none := by
  have h1 := C6_delete_file_amended.1 stOne "missing" (by rw [stOne]; rfl)
  have h2 := C6_delete_file_amended.2 stOne "f1" unloadedMeta (by rw [stOne]; rfl)
    (by simp [stOne]) (by simp [stOne])
  exact ⟨h1, h2.1, h2.2.1, h2.2.2.1⟩

/-- C6 counterexample: on the empty store, `DeleteFile` of an unknown id
returns an error, contradicting the claim that this is not an error at the
store-level boundary. -/
theorem C6_counterexample :
    alookup (CSVDataService.files ⟨[], []⟩) "missing" = none ∧
    (DeleteFile ⟨[], []⟩ "missing").2 = some "file not found: missing" := by
  exact ⟨rfl, rfl⟩

/-! ## Embedding of the collection manager (internal/collector/manager.go) -/

/-- Embedding of `metrics.DiskStats`. -/
structure DiskStats where
  utilization : ℚ
  await : ℚ
  iops : ℚ
deriving DecidableEq, Repr

/-- Embedding of `metrics.NetStats`. -/
structure NetStats where
  bandwidth : ℚ
deriving DecidableEq, Repr

/-- Embedding of `metrics.Snapshot`; the disk and network maps are modelled
as association lists. -/
structure Snapshot where
  timestamp : GoTime
  cpu : ℚ
  cpuWait : ℚ
  memory : ℚ
  disks : List (String × DiskStats)
  networks : List (String × NetStats)
deriving DecidableEq, Repr

/-- The capacity of the bounded metrics queue (`make(chan *metrics.Snapshot,
10)` at the call sites constructing the channel). -/
def queueCapacity : ℕ := 10

/-- The outcome of the four concurrent collector goroutines of one tick:
`none` models a collector error (the snapshot field keeps its zero value) and,
for disks/networks, also a nil map. -/
structure CollectOutcome where
  cpu : Option (ℚ × ℚ)
  memory : Option ℚ
  disks : Option (List (String × DiskStats))
  networks : Option (List (String × NetStats))
deriving DecidableEq, Repr

/-- The merged snapshot that `Manager.collectOnce` builds from the collector
results: each goroutine fills its fields only on success, otherwise the
zero-valued initialization (`0`, empty maps) remains. -/
def mkSnapshot (res : CollectOutcome) (now : GoTime) : Snapshot :=
  { timestamp := now
    cpu := match res.cpu with | some c => c.1 | none => 0
    cpuWait := match res.cpu with | some c => c.2 | none => 0
    memory := match res.memory with | some m => m | none => 0
    disks := match res.disks with | some d => d | none => []
    networks := match res.networks with | some n => n | none => [] }

/-- Embedding of the publish decision at the end of `Manager.collectOnce`:
returns the queue after the tick and the returned error, if any.  The
fan-out/fan-in concurrency is abstracted into the `CollectOutcome` input (the
four goroutines write disjoint snapshot fields under the mutex); the
non-blocking `select` send is modelled by the capacity test on the queue. -/
def collectOnce (res : CollectOutcome) (now : GoTime) (queue : List Snapshot) :
    List Snapshot × Option String :=
  let snapshot := mkSnapshot res now
  if snapshot.disks.length = 0 ∨ snapshot.networks.length = 0 then
    (queue, none)
  else if queue.length < queueCapacity then
    (queue ++ [snapshot], none)
  else
    (queue, some "metrics channel full")

/-- C8: a tick whose merged snapshot has an empty disk or network map is not
enqueued; otherwise the enqueue is non-blocking — the snapshot is appended
when the capacity-10 queue has room and is dropped with a reported error when
it is full, in both cases leaving the loop free to continue (the function
always returns). -/
theorem C8_nonblocking_enqueue
    (res : CollectOutcome) (now : GoTime) (queue : List Snapshot) :
    ((mkSnapshot res now).disks.length = 0 ∨
        (mkSnapshot res now).networks.length = 0 →
      collectOnce res now queue = (queue, none)) ∧
    (¬((mkSnapshot res now).disks.length = 0 ∨
        (mkSnapshot res now).networks.length = 0) →
      (queue.length < queueCapacity →
        collectOnce res now queue = (queue ++ [mkSnapshot res now], none)) ∧
      (queue.length = queueCapacity →
        collectOnce res now queue = (queue, some "metrics channel full"))) := by
  constructor
  · intro h
    rw [collectOnce]
    simp only [h, if_true]
  · intro h
    constructor
    · intro hroom
      rw [collectOnce]
      simp only [h, if_false, hroom, if_true]
    · intro hfull
      rw [collectOnce]
      have : ¬ queue.length < queueCapacity := by omega
      simp only [h, if_false, this]

/-- Concrete collector outcome with one disk and one interface. -/
def outcomeEx : CollectOutcome :=
  { cpu := some (50, 5), memory := some 40,
    disks := some [("sda", ⟨10, 1, 100⟩)],
    networks := some [("eth0", ⟨1000000⟩)] }

/-- Concrete collector outcome whose network map is empty. -/
def outcomeEmptyNet : CollectOutcome :=
  { cpu := some (50, 5), memory := some 40,
    disks := some [("sda", ⟨10, 1, 100⟩)],
    networks := some [] }

/-- A full queue of 10 identical snapshots. -/
def fullQueueEx : List Snapshot :=
  List.replicate 10 (mkSnapshot outcomeEx ⟨1⟩)

/-- Witness for C8: an empty-network tick is not published, a tick with room
is enqueued, and a tick against the full queue is dropped with the
"metrics channel full" error. -/
theorem C8_nonblocking_enqueue_witness :
    collectOnce outcomeEmptyNet ⟨2⟩ [] = ([], none) ∧
    collectOnce outcomeEx ⟨2⟩ [] = ([mkSnapshot outcomeEx ⟨2⟩], none) ∧
    collectOnce outcomeEx ⟨2⟩ fullQueueEx =
      (fullQueueEx, some "metrics channel full") := by
  refine ⟨?_, ?_, ?_⟩
  · exact (C8_nonblocking_enqueue outcomeEmptyNet ⟨2⟩ []).1
      (by simp [mkSnapshot, outcomeEmptyNet])
  · have := (C8_nonblocking_enqueue outcomeEx ⟨2⟩ []).2
      (by simp [mkSnapshot, outcomeEx])
    simpa using this.1 (by simp [queueCapacity])
  · have := (C8_nonblocking_enqueue outcomeEx ⟨2⟩ fullQueueEx).2
      (by simp [mkSnapshot, outcomeEx])
    exact this.2 (by simp [fullQueueEx, queueCapacity])

/-! ## Embedding of `CSVDataService.GetColumnData` -/

/-- Embedding of Go's `sort.Search` over the timestamp array: the smallest
index whose element satisfies the predicate, or the length when none does
(`sort.Search` guarantees this for the monotone predicates used here, which
ordered timestamps make monotone). -/
def sortSearch (pred : ℤ → Bool) : List ℤ → ℕ
  | [] => 0
  | x :: xs => if pred x then 0 else sortSearch pred xs + 1

/-- Embedding of the `maxPoints` downsampling cap. -/
def maxPoints : ℕ := 2000

/-- Embedding of `server.DataPoint`; the timestamp is the Unix-second value
round-tripped through `time.Unix`. -/
structure DataPoint where
  timestamp : ℤ
  value : ℚ
deriving DecidableEq, Repr

/-- Embedding of the direct extraction loop of `GetColumnData` (the
`totalPoints <= maxPoints` branch): indices `startIdx ≤ i < endIdx`, skipping
NaN values.  Indexing is modelled with `getD`; the store invariant keeps all
accesses in bounds. -/
def extractPoints (ts : List ℤ) (values : List (Option ℚ))
    (startIdx endIdx : ℕ) : List DataPoint :=
  (List.range' startIdx (endIdx - startIdx)).filterMap (fun i =>
    match values.getD i none with
    | none => none
    | some v => some ⟨ts.getD i 0, v⟩)

/-- Embedding of the sum/count accumulation over one downsampling bucket. -/
def bucketAccum (values : List (Option ℚ)) (pStart pEnd : ℕ) : ℚ × ℕ :=
  (List.range' pStart (pEnd - pStart)).foldl
    (fun acc j =>
      match values.getD j none with
      | none => acc
      | some v => (acc.1 + v, acc.2 + 1)) (0, 0)

/-- Embedding of one iteration of the downsampling loop of `GetColumnData`:
the output point of bucket `i`, if any. -/
def bucketPoint (ts : List ℤ) (values : List (Option ℚ))
    (startIdx endIdx : ℕ) (bucketSize : ℚ) (i : ℕ) : Option DataPoint :=
  let pStart := startIdx + (⌊(i : ℚ) * bucketSize⌋).toNat
  let pEnd0 := startIdx + (⌊((i : ℚ) + 1) * bucketSize⌋).toNat
  let pEnd := if pEnd0 > endIdx then endIdx else pEnd0
  if pStart ≥ pEnd then none
  else
    let ts0 := ts.getD pStart 0
    let sc := bucketAccum values pStart pEnd
    if sc.2 = 0 then none
    else some ⟨ts0, sc.1 / (sc.2 : ℚ)⟩

/-- Embedding of the full downsampling loop (average pooling). -/
def downsamplePoints (ts : List ℤ) (values : List (Option ℚ))
    (startIdx endIdx : ℕ) : List DataPoint :=
  let totalPoints := endIdx - startIdx
  let bucketSize : ℚ := (totalPoints : ℚ) / (maxPoints : ℚ)
  (List.range maxPoints).filterMap
    (bucketPoint ts values startIdx endIdx bucketSize)

/-- Embedding of the start-index computation of `GetColumnData` (binary
search for the first timestamp `≥ timeFrom`; `0` when no lower bound). -/
def startIndex (ts : List ℤ) (timeFrom : Option ℤ) : ℕ :=
  match timeFrom with
  | none => 0
  | some target => sortSearch (fun x => target ≤ x) ts

/-- Embedding of the end-index computation of `GetColumnData` (binary search
for the first timestamp `> timeTo`, clamped to the array length; the length
when no upper bound). -/
def endIndex (ts : List ℤ) (timeTo : Option ℤ) : ℕ :=
  match timeTo with
  | none => ts.length
  | some target =>
    let idx := sortSearch (fun x => target < x) ts
    if idx < ts.length then idx else ts.length

/-- Embedding of `CSVDataService.GetColumnData`; `timeFrom`/`timeTo` carry the
Unix-second values of the optional bounds. -/
def GetColumnData (s : CSVDataService) (fileID columnName : String)
    (timeFrom timeTo : Option ℤ) : Except String (List DataPoint) :=
  match alookup s.columnData fileID with
  | none => .error ("data not found for file: " ++ fileID)
  | some colsData =>
    match alookup colsData.values columnName with
    | none => .error ("column not found: " ++ columnName)
    | some values =>
      let startIdx := startIndex colsData.timestamps timeFrom
      let endIdx := endIndex colsData.timestamps timeTo
      if startIdx ≥ endIdx then .ok []
      else
        let totalPoints := endIdx - startIdx
        if totalPoints ≤ maxPoints then
          .ok (extractPoints colsData.timestamps values startIdx endIdx)
        else
          .ok (downsamplePoints colsData.timestamps values startIdx endIdx)

/-- Helper used to relate the extraction loop to the zipped arrays. -/
def pairExtract (p : ℤ × Option ℚ) : Option DataPoint :=
  match p.2 with
  | none => none
  | some v => some ⟨p.1, v⟩

/-- The range-query result as the claim words it: the (timestamp, value)
pairs of the column with `tFrom ≤ t ≤ tTo` and a non-NaN value, in stored
order. -/
def specRangePairs (ts : List ℤ) (values : List (Option ℚ))
    (tFrom tTo : ℤ) : List DataPoint :=
  (ts.zip values).filterMap (fun p =>
    if tFrom ≤ p.1 ∧ p.1 ≤ tTo then p.2.map (fun v => ⟨p.1, v⟩) else none)

/-- The non-NaN values of one downsampling bucket, as the claim words it. -/
def specBucketValues (values : List (Option ℚ)) (pStart pEnd : ℕ) : List ℚ :=
  (List.range' pStart (pEnd - pStart)).filterMap (fun j => values.getD j none)

/-- One bucket of the downsampled result as the claim words it: bucket `i`
of 2,000 equal-width buckets over the selected range; if it has at least one
non-NaN value it contributes one point whose value is the average of those
values and whose timestamp is the timestamp of the bucket's first raw
sample, otherwise it contributes nothing. -/
def specBucketPoint (ts : List ℤ) (values : List (Option ℚ))
    (startIdx endIdx : ℕ) (i : ℕ) : Option DataPoint :=
  let w : ℚ := ((endIdx - startIdx : ℕ) : ℚ) / (maxPoints : ℚ)
  let pStart := startIdx + (⌊(i : ℚ) * w⌋).toNat
  let pEnd := min (startIdx + (⌊((i : ℚ) + 1) * w⌋).toNat) endIdx
  let vs := specBucketValues values pStart pEnd
  if vs.length = 0 then none
  else some ⟨ts.getD pStart 0, vs.sum / (vs.length : ℚ)⟩

/-- The downsampled result as the claim words it. -/
def specDownsample (ts : List ℤ) (values : List (Option ℚ))
    (startIdx endIdx : ℕ) : List DataPoint :=
  (List.range maxPoints).filterMap (specBucketPoint ts values startIdx endIdx)

/-- Helper: `sortSearch` on a cons with a satisfied head is 0. -/
theorem sortSearch_cons_pos (pred : ℤ → Bool) (a : ℤ) (ts : List ℤ)
    (h : pred a = true) : sortSearch pred (a :: ts) = 0 := by
  rw [sortSearch, if_pos h]

/-- Helper: `sortSearch` on a cons with an unsatisfied head recurses. -/
theorem sortSearch_cons_neg (pred : ℤ → Bool) (a : ℤ) (ts : List ℤ)
    (h : ¬ pred a = true) : sortSearch pred (a :: ts) = sortSearch pred ts + 1 := by
  rw [sortSearch, if_neg h]

/-- Helper: `sortSearch` never exceeds the list length. -/
theorem sortSearch_le_length (pred : ℤ → Bool) (ts : List ℤ) :
    sortSearch pred ts ≤ ts.length := by
  induction ts with
  | nil => simp [sortSearch]
  | cons a ts ih =>
    by_cases h : pred a = true
    · rw [sortSearch_cons_pos pred a ts h]
      simp
    · rw [sortSearch_cons_neg pred a ts h, List.length_cons]
      omega

/-- Helper: `sortSearch` returns 0 when every element satisfies the
predicate. -/
theorem sortSearch_eq_zero_of_forall (pred : ℤ → Bool) (ts : List ℤ)
    (h : ∀ x ∈ ts, pred x = true) : sortSearch pred ts = 0 := by
  cases ts with
  | nil => rfl
  | cons a ts => rw [sortSearch, if_pos (h a (List.mem_cons_self a ts))]

/-- Helper: `sortSearch` returns the length when no element satisfies the
predicate. -/
theorem sortSearch_eq_length_of_forall (pred : ℤ → Bool) (ts : List ℤ)
    (h : ∀ x ∈ ts, pred x = false) : sortSearch pred ts = ts.length := by
  induction ts with
  | nil => rfl
  | cons a ts ih =>
    rw [sortSearch, if_neg (by simp [h a (List.mem_cons_self a ts)]),
      List.length_cons, ih (fun x hx => h x (List.mem_cons_of_mem _ hx))]

/-- Helper: `endIndex` with an upper bound is exactly the raw search result
(the clamp never fires because the search result is at most the length). -/
theorem endIndex_some (ts : List ℤ) (t : ℤ) :
    endIndex ts (some t) = sortSearch (fun x => t < x) ts := by
  rw [endIndex]
  have := sortSearch_le_length (fun x => decide (t < x)) ts
  by_cases h : sortSearch (fun x => decide (t < x)) ts < ts.length
  · simp only [if_pos h]
  · simp only [if_neg h]
    omega

/-- Helper: the range filter over zipped arrays is empty when every
timestamp lies above the upper bound. -/
theorem zip_filter_nil_of_all_gt (ts : List ℤ) (values : List (Option ℚ))
    (tFrom tTo : ℤ) (h : ∀ x ∈ ts, tTo < x) :
    (ts.zip values).filter
      (fun p => decide (tFrom ≤ p.1) && decide (p.1 ≤ tTo)) = [] := by
  rw [List.filter_eq_nil_iff]
  intro p hp
  have hmem : p.1 ∈ ts := (List.of_mem_zip hp).1
  simp [not_le.mpr (h p.1 hmem)]

/-- Key lemma: on sorted timestamps, the index window found by the two
binary searches selects exactly the zipped pairs whose timestamp lies in
`[tFrom, tTo]`. -/
theorem sorted_segment_eq_filter (ts : List ℤ) (values : List (Option ℚ))
    (tFrom tTo : ℤ) (hs : List.Sorted (· ≤ ·) ts) :
    ((ts.zip values).drop (sortSearch (fun x => tFrom ≤ x) ts)).take
        (sortSearch (fun x => tTo < x) ts -
          sortSearch (fun x => tFrom ≤ x) ts) =
      (ts.zip values).filter
        (fun p => decide (tFrom ≤ p.1) && decide (p.1 ≤ tTo)) := by
  induction ts generalizing values with
  | nil => simp [sortSearch]
  | cons a ts ih =>
    cases values with
    | nil => simp [List.zip_nil_right]
    | cons v vs =>
      have hstail : List.Sorted (· ≤ ·) ts := hs.of_cons
      have hrel : ∀ b ∈ ts, a ≤ b := List.rel_of_sorted_cons hs
      rw [List.zip_cons_cons]
      by_cases hfa : tFrom ≤ a
      · have hS : sortSearch (fun x => tFrom ≤ x) (a :: ts) = 0 :=
          sortSearch_cons_pos _ a ts (by simp [hfa])
        by_cases hta : tTo < a
        · have hE : sortSearch (fun x => tTo < x) (a :: ts) = 0 :=
            sortSearch_cons_pos _ a ts (by simp [hta])
          have hall : ∀ x ∈ ts, tTo < x := fun x hx =>
            lt_of_lt_of_le hta (hrel x hx)
          rw [hS, hE]
          rw [List.filter_cons_of_neg (by simp [not_le.mpr hta]),
            zip_filter_nil_of_all_gt ts vs tFrom tTo hall]
          rfl
        · have hE : sortSearch (fun x => tTo < x) (a :: ts) =
              sortSearch (fun x => tTo < x) ts + 1 :=
            sortSearch_cons_neg _ a ts (by simp [hta])
          rw [hS, hE, List.drop_zero, Nat.sub_zero, List.take_succ_cons]
          rw [List.filter_cons_of_pos (by simp [hfa, not_lt.mp hta])]
          congr 1
          have hS0 : sortSearch (fun x => tFrom ≤ x) ts = 0 :=
            sortSearch_eq_zero_of_forall _ ts
              (fun x hx => by simp [le_trans hfa (hrel x hx)])
          have hseg := ih vs hstail
          rw [hS0, List.drop_zero, Nat.sub_zero] at hseg
          exact hseg
      · have hS : sortSearch (fun x => tFrom ≤ x) (a :: ts) =
            sortSearch (fun x => tFrom ≤ x) ts + 1 :=
          sortSearch_cons_neg _ a ts (by simp [hfa])
        by_cases hta : tTo < a
        · have hE : sortSearch (fun x => tTo < x) (a :: ts) = 0 :=
            sortSearch_cons_pos _ a ts (by simp [hta])
          have hall : ∀ x ∈ ts, tTo < x := fun x hx =>
            lt_of_lt_of_le hta (hrel x hx)
          rw [hS, hE, Nat.zero_sub, List.take_zero,
            List.filter_cons_of_neg (by simp [hfa]),
            zip_filter_nil_of_all_gt ts vs tFrom tTo hall]
        · have hE : sortSearch (fun x => tTo < x) (a :: ts) =
              sortSearch (fun x => tTo < x) ts + 1 :=
            sortSearch_cons_neg _ a ts (by simp [hta])
          rw [hS, hE, List.filter_cons_of_neg (by simp [hfa]),
            Nat.succ_sub_succ, List.drop_succ_cons]
          exact ih vs hstail

/-- Helper: on sorted timestamps the window width equals the number of
timestamps inside `[tFrom, tTo]`. -/
theorem sorted_range_count (ts : List ℤ) (tFrom tTo : ℤ)
    (hs : List.Sorted (· ≤ ·) ts) :
    sortSearch (fun x => tTo < x) ts - sortSearch (fun x => tFrom ≤ x) ts =
      (ts.filter (fun t => decide (tFrom ≤ t) && decide (t ≤ tTo))).length := by
  induction ts with
  | nil => simp [sortSearch]
  | cons a ts ih =>
    have hstail : List.Sorted (· ≤ ·) ts := hs.of_cons
    have hrel : ∀ b ∈ ts, a ≤ b := List.rel_of_sorted_cons hs
    by_cases hfa : tFrom ≤ a
    · have hS : sortSearch (fun x => tFrom ≤ x) (a :: ts) = 0 :=
        sortSearch_cons_pos _ a ts (by simp [hfa])
      by_cases hta : tTo < a
      · have hE : sortSearch (fun x => tTo < x) (a :: ts) = 0 :=
          sortSearch_cons_pos _ a ts (by simp [hta])
        have hall : ∀ x ∈ ts, ¬(x ≤ tTo) := fun x hx =>
          not_le.mpr (lt_of_lt_of_le hta (hrel x hx))
        have hnil : ts.filter (fun t => decide (tFrom ≤ t) && decide (t ≤ tTo)) = [] := by
          rw [List.filter_eq_nil_iff]
          intro x hx
          simp [hall x hx]
        rw [hS, hE, List.filter_cons_of_neg (by simp [not_le.mpr hta]), hnil]
        rfl
      · have hE : sortSearch (fun x => tTo < x) (a :: ts) =
            sortSearch (fun x => tTo < x) ts + 1 :=
          sortSearch_cons_neg _ a ts (by simp [hta])
        rw [hS, hE, List.filter_cons_of_pos (by simp [hfa, not_lt.mp hta]),
          List.length_cons]
        have hS0 : sortSearch (fun x => tFrom ≤ x) ts = 0 :=
          sortSearch_eq_zero_of_forall _ ts
            (fun x hx => by simp [le_trans hfa (hrel x hx)])
        have hcount := ih hstail
        rw [hS0, Nat.sub_zero] at hcount
        omega
    · have hS : sortSearch (fun x => tFrom ≤ x) (a :: ts) =
          sortSearch (fun x => tFrom ≤ x) ts + 1 :=
        sortSearch_cons_neg _ a ts (by simp [hfa])
      by_cases hta : tTo < a
      · have hE : sortSearch (fun x => tTo < x) (a :: ts) = 0 :=
          sortSearch_cons_pos _ a ts (by simp [hta])
        have hall : ∀ x ∈ ts, ¬(x ≤ tTo) := fun x hx =>
          not_le.mpr (lt_of_lt_of_le hta (hrel x hx))
        have hnil : ts.filter (fun t => decide (tFrom ≤ t) && decide (t ≤ tTo)) = [] := by
          rw [List.filter_eq_nil_iff]
          intro x hx
          simp [hall x hx]
        rw [hS, hE, List.filter_cons_of_neg (by simp [hfa]), hnil]
        simp
      · have hE : sortSearch (fun x => tTo < x) (a :: ts) =
            sortSearch (fun x => tTo < x) ts + 1 :=
          sortSearch_cons_neg _ a ts (by simp [hta])
        rw [hS, hE, List.filter_cons_of_neg (by simp [hfa]), Nat.succ_sub_succ]
        exact ih hstail

/-- Helper: reading a contiguous index range through `getD` is slicing. -/
theorem range'_map_getD {α : Type} (l : List α) (d : α) :
    ∀ (n a : ℕ), a + n ≤ l.length →
      (List.range' a n).map (fun i => l.getD i d) = (l.drop a).take n := by
  intro n
  induction n with
  | zero => intro a _; simp
  | succ n ih =>
    intro a h
    have ha : a < l.length := by omega
    rw [List.range'_succ, List.map_cons, ih (a + 1) (by omega)]
    rw [List.getD_eq_getElem l d ha, List.drop_eq_getElem_cons ha]
    rfl

/-- Helper: the direct extraction loop equals NaN-filtering the slice of the
zipped arrays between the two search indices. -/
theorem extractPoints_eq_seg (ts : List ℤ) (values : List (Option ℚ))
    (S E : ℕ) (hE : E ≤ ts.length) (hlen : ts.length ≤ values.length) :
    extractPoints ts values S E =
      (((ts.zip values).drop S).take (E - S)).filterMap pairExtract := by
  rw [extractPoints]
  have hzlen : (ts.zip values).length = ts.length := by
    rw [List.length_zip]
    omega
  by_cases hSE : S ≤ E
  · have hbound : S + (E - S) ≤ (ts.zip values).length := by omega
    rw [← range'_map_getD (ts.zip values) (0, none) (E - S) S hbound,
      List.filterMap_map]
    apply List.filterMap_congr
    intro i hi
    have hiE : i < E := by
      have := List.mem_range'_1.mp hi
      omega
    have hits : i < ts.length := by omega
    have hivs : i < values.length := by omega
    have hiz : i < (ts.zip values).length := by omega
    simp only [Function.comp_apply]
    rw [List.getD_eq_getElem _ _ hiz, List.getElem_zip,
      List.getD_eq_getElem ts 0 hits, List.getD_eq_getElem values none hivs]
    rfl
  · have h0 : E - S = 0 := by omega
    simp [h0]

/-- Helper: filtering then extracting equals the one-pass description used by
the claim. -/
theorem filterMap_pairExtract_filter (l : List (ℤ × Option ℚ))
    (tFrom tTo : ℤ) :
    (l.filter (fun p => decide (tFrom ≤ p.1) && decide (p.1 ≤ tTo))).filterMap
        pairExtract =
      l.filterMap (fun p =>
        if tFrom ≤ p.1 ∧ p.1 ≤ tTo then
          p.2.map (fun v => DataPoint.mk p.1 v)
        else none) := by
  induction l with
  | nil => rfl
  | cons p rest ih =>
    by_cases hc : tFrom ≤ p.1 ∧ p.1 ≤ tTo
    · rw [List.filter_cons_of_pos (by simp [hc.1, hc.2]), List.filterMap_cons,
        List.filterMap_cons, if_pos hc]
      cases hp2 : p.2 with
      | none => simp [pairExtract, hp2, ih]
      | some v => simp [pairExtract, hp2, ih]
    · rw [List.filter_cons_of_neg
        (by simp only [Bool.and_eq_true, decide_eq_true_eq]; exact hc),
        List.filterMap_cons, if_neg hc, ih]

/-- Key lemma: on a sorted timestamp array, a bounded query whose selected
window holds at most `maxPoints` raw points returns exactly the NaN-filtered
(timestamp, value) pairs inside `[tFrom, tTo]`. -/
theorem getColumnData_small_eq_spec
    (s : CSVDataService) (fileID columnName : String) (tFrom tTo : ℤ)
    (colsData : ColumnData) (values : List (Option ℚ))
    (hcd : alookup s.columnData fileID = some colsData)
    (hv : alookup colsData.values columnName = some values)
    (hlen : colsData.timestamps.length ≤ values.length)
    (hs : List.Sorted (· ≤ ·) colsData.timestamps)
    (hsmall : (colsData.timestamps.filter
        (fun t => decide (tFrom ≤ t) && decide (t ≤ tTo))).length ≤ maxPoints) :
    GetColumnData s fileID columnName (some tFrom) (some tTo) =
      .ok (specRangePairs colsData.timestamps values tFrom tTo) := by
  have hE' : endIndex colsData.timestamps (some tTo) =
      sortSearch (fun x => tTo < x) colsData.timestamps := endIndex_some _ _
  have hS' : startIndex colsData.timestamps (some tFrom) =
      sortSearch (fun x => tFrom ≤ x) colsData.timestamps := rfl
  have hEle : endIndex colsData.timestamps (some tTo) ≤
      colsData.timestamps.length := by
    rw [hE']
    exact sortSearch_le_length _ _
  have hkey : extractPoints colsData.timestamps values
      (startIndex colsData.timestamps (some tFrom))
      (endIndex colsData.timestamps (some tTo)) =
      specRangePairs colsData.timestamps values tFrom tTo := by
    rw [extractPoints_eq_seg _ _ _ _ hEle hlen, hS', hE',
      sorted_segment_eq_filter _ _ _ _ hs, filterMap_pairExtract_filter,
      specRangePairs]
  have hwidth : endIndex colsData.timestamps (some tTo) -
      startIndex colsData.timestamps (some tFrom) ≤ maxPoints := by
    rw [hE', hS', sorted_range_count _ _ _ hs]
    exact hsmall
  simp only [GetColumnData, hcd, hv]
  by_cases hge : startIndex colsData.timestamps (some tFrom) ≥
      endIndex colsData.timestamps (some tTo)
  · have h0 : endIndex colsData.timestamps (some tTo) -
        startIndex colsData.timestamps (some tFrom) = 0 :=
      Nat.sub_eq_zero_of_le hge
    have hnil : extractPoints colsData.timestamps values
        (startIndex colsData.timestamps (some tFrom))
        (endIndex colsData.timestamps (some tTo)) = [] := by
      rw [extractPoints, h0]
      rfl
    rw [if_pos hge, ← hkey, hnil]
  · rw [if_neg hge, if_pos hwidth, hkey]

/-- C3 (amended): on a loaded file with monotonically non-decreasing
timestamps, provided the selected window holds at most 2,000 raw points (the
downsampling threshold), `GetColumnData` returns exactly the (timestamp,
value) pairs with `from ≤ t ≤ to` and non-NaN value, in timestamp order and
boundary-inclusive; an unknown file id or column name fails with an error. -/
theorem C3_query_range_amended
    (s : CSVDataService) (fileID columnName : String) (tFrom tTo : ℤ)
    (colsData : ColumnData) (values : List (Option ℚ))
    (hcd : alookup s.columnData fileID = some colsData)
    (hv : alookup colsData.values columnName = some values)
    (hlen : colsData.timestamps.length ≤ values.length)
    (hs : List.Sorted (· ≤ ·) colsData.timestamps)
    (hsmall : (colsData.timestamps.filter
        (fun t => decide (tFrom ≤ t) && decide (t ≤ tTo))).length ≤ maxPoints) :
    GetColumnData s fileID columnName (some tFrom) (some tTo) =
      .ok (specRangePairs colsData.timestamps values tFrom tTo) ∧
    (∀ badID, alookup s.columnData badID = none →
      GetColumnData s badID columnName (some tFrom) (some tTo) =
        .error ("data not found for file: " ++ badID)) ∧
    (∀ badCol, alookup colsData.values badCol = none →
      GetColumnData s fileID badCol (some tFrom) (some tTo) =
        .error ("column not found: " ++ badCol)) := by
  refine ⟨getColumnData_small_eq_spec s fileID columnName tFrom tTo colsData
    values hcd hv hlen hs hsmall, ?_, ?_⟩
  · intro badID hbad
    simp only [GetColumnData, hbad]
  · intro badCol hbad
    simp only [GetColumnData, hcd, hbad]

/-- Metadata of the loaded four-row file of the small concrete store. -/
def smallMeta : CSVFile :=
  { id := "f", name := "f", path := "p", columns := ["Timestamp", "c"],
    rowCount := 4, minTime := ⟨1⟩, maxTime := ⟨4⟩, isLoaded := true }

/-- A small concrete store with one loaded file of four rows and one NaN
cell at timestamp 3. -/
def smallStore : CSVDataService :=
  { files := [("f", smallMeta)],
    columnData := [("f", ⟨[1, 2, 3, 4],
      [("c", [some 10, some 20, none, some 40])]⟩)] }

/-- Witness for C3 on the small store: the query `[2, 4]`, whose bounds both
match stored timestamps, is boundary-inclusive on both ends (the points at
timestamps 2 and 4 are returned) and skips the NaN cell at timestamp 3. -/
theorem C3_query_range_amended_witness :
    (smallMeta.isLoaded = true ∧
      alookup smallStore.files "f" = some smallMeta) ∧
    GetColumnData smallStore "f" "c" (some 2) (some 4) =
      .ok [⟨2, 20⟩, ⟨4, 40⟩] ∧
    GetColumnData smallStore "missing" "c" (some 2) (some 4) =
      .error ("data not found for file: " ++ "missing") ∧
    GetColumnData smallStore "f" "badcol" (some 2) (some 4) =
      .error ("column not found: " ++ "badcol") := by
  have h := C3_query_range_amended smallStore "f" "c" 2 4
    ⟨[1, 2, 3, 4], [("c", [some 10, some 20, none, some 40])]⟩
    [some 10, some 20, none, some 40]
    (by rw [smallStore]; rfl) (by rfl) (by simp)
    (by simp [List.sorted_cons])
    (by simp [maxPoints])
  refine ⟨⟨rfl, by rw [smallStore]; rfl⟩, ?_, ?_, ?_⟩
  · rw [h.1]
    rfl
  · exact h.2.1 "missing" (by rw [smallStore]; rfl)
  · exact h.2.2 "badcol" (by rfl)

/-- Helper: the sum/count fold over a bucket computes the sum and the count
of its non-NaN values. -/
theorem foldl_accum_eq (g : ℕ → Option ℚ) (l : List ℕ) :
    ∀ (s0 : ℚ) (c0 : ℕ),
      l.foldl (fun acc j =>
        match g j with
        | none => acc
        | some v => (acc.1 + v, acc.2 + 1)) (s0, c0) =
      (s0 + (l.filterMap g).sum, c0 + (l.filterMap g).length) := by
  induction l with
  | nil => intro s0 c0; simp
  | cons a rest ih =>
    intro s0 c0
    rw [List.foldl_cons, List.filterMap_cons]
    cases hga : g a with
    | none => exact ih s0 c0
    | some v =>
      refine Eq.trans (ih (s0 + v) (c0 + 1)) ?_
      simp only [List.sum_cons, List.length_cons, Prod.mk.injEq]
      exact ⟨by ring, by omega⟩

/-- Helper: `bucketAccum` computes the sum and count of the bucket's non-NaN
values. -/
theorem bucketAccum_eq (values : List (Option ℚ)) (pStart pEnd : ℕ) :
    bucketAccum values pStart pEnd =
      ((specBucketValues values pStart pEnd).sum,
       (specBucketValues values pStart pEnd).length) := by
  rw [bucketAccum, specBucketValues,
    foldl_accum_eq (fun j => values.getD j none) (List.range' pStart (pEnd - pStart)) 0 0]
  simp

/-- Helper: the code's bucket computation coincides with the claim's bucket
description. -/
theorem bucketPoint_eq_spec (ts : List ℤ) (values : List (Option ℚ))
    (S E i : ℕ) :
    bucketPoint ts values S E (((E - S : ℕ) : ℚ) / (maxPoints : ℚ)) i =
      specBucketPoint ts values S E i := by
  rw [bucketPoint, specBucketPoint]
  have hminEq : (if S + (⌊((i : ℚ) + 1) * (((E - S : ℕ) : ℚ) / (maxPoints : ℚ))⌋).toNat > E
      then E
      else S + (⌊((i : ℚ) + 1) * (((E - S : ℕ) : ℚ) / (maxPoints : ℚ))⌋).toNat) =
      min (S + (⌊((i : ℚ) + 1) * (((E - S : ℕ) : ℚ) / (maxPoints : ℚ))⌋).toNat) E := by
    split <;> omega
  rw [hminEq, bucketAccum_eq]
  by_cases hge : S + (⌊(i : ℚ) * (((E - S : ℕ) : ℚ) / (maxPoints : ℚ))⌋).toNat ≥
      min (S + (⌊((i : ℚ) + 1) * (((E - S : ℕ) : ℚ) / (maxPoints : ℚ))⌋).toNat) E
  · rw [if_pos hge]
    have h0 : min (S + (⌊((i : ℚ) + 1) * (((E - S : ℕ) : ℚ) / (maxPoints : ℚ))⌋).toNat) E -
        (S + (⌊(i : ℚ) * (((E - S : ℕ) : ℚ) / (maxPoints : ℚ))⌋).toNat) = 0 := by omega
    have hnil : specBucketValues values
        (S + (⌊(i : ℚ) * (((E - S : ℕ) : ℚ) / (maxPoints : ℚ))⌋).toNat)
        (min (S + (⌊((i : ℚ) + 1) * (((E - S : ℕ) : ℚ) / (maxPoints : ℚ))⌋).toNat) E) = [] := by
      rw [specBucketValues, h0]
      rfl
    rw [hnil]
    rfl
  · rw [if_neg hge]

/-- Helper: the downsampling loop of the code equals the claim's
description. -/
theorem downsamplePoints_eq_spec (ts : List ℤ) (values : List (Option ℚ))
    (S E : ℕ) :
    downsamplePoints ts values S E = specDownsample ts values S E := by
  rw [downsamplePoints, specDownsample]
  apply List.filterMap_congr
  intro i _
  exact bucketPoint_eq_spec ts values S E i

/-- Helper: a `filterMap` whose function always produces a value keeps the
length. -/
theorem length_filterMap_eq_length {α β : Type} (l : List α) (f : α → Option β)
    (h : ∀ x ∈ l, (f x).isSome) : (l.filterMap f).length = l.length := by
  induction l with
  | nil => rfl
  | cons a rest ih =>
    rw [List.filterMap_cons]
    rcases hfa : f a with _ | b
    · exact absurd (h a (List.mem_cons_self a rest)) (by simp [hfa])
    · rw [List.length_cons, List.length_cons,
        ih (fun x hx => h x (List.mem_cons_of_mem _ hx))]

/-- Helper: when the selected range holds more than `maxPoints` raw points
and values are all non-NaN, every bucket contributes a point. -/
theorem specBucketPoint_isSome
    (ts : List ℤ) (values : List (Option ℚ)) (S E i : ℕ)
    (hi : i < maxPoints) (hb : maxPoints < E - S) (hEv : E ≤ values.length)
    (hnn : ∀ v ∈ values, v ≠ none) :
    (specBucketPoint ts values S E i).isSome := by
  have hmp : (0 : ℚ) < (maxPoints : ℚ) := by norm_num [maxPoints]
  have hw1 : 1 ≤ ((E - S : ℕ) : ℚ) / (maxPoints : ℚ) := by
    rw [le_div_iff₀ hmp, one_mul]
    exact_mod_cast le_of_lt hb
  have hw0 : 0 < ((E - S : ℕ) : ℚ) / (maxPoints : ℚ) :=
    lt_of_lt_of_le one_pos hw1
  have hfl : ⌊(i : ℚ) * (((E - S : ℕ) : ℚ) / (maxPoints : ℚ))⌋ + 1 ≤
      ⌊((i : ℚ) + 1) * (((E - S : ℕ) : ℚ) / (maxPoints : ℚ))⌋ := by
    have h1 : (i : ℚ) * (((E - S : ℕ) : ℚ) / (maxPoints : ℚ)) + 1 ≤
        ((i : ℚ) + 1) * (((E - S : ℕ) : ℚ) / (maxPoints : ℚ)) := by nlinarith
    calc ⌊(i : ℚ) * (((E - S : ℕ) : ℚ) / (maxPoints : ℚ))⌋ + 1 =
        ⌊(i : ℚ) * (((E - S : ℕ) : ℚ) / (maxPoints : ℚ)) + 1⌋ :=
          (Int.floor_add_one _).symm
      _ ≤ ⌊((i : ℚ) + 1) * (((E - S : ℕ) : ℚ) / (maxPoints : ℚ))⌋ :=
          Int.floor_le_floor h1
  have hfl0 : 0 ≤ ⌊(i : ℚ) * (((E - S : ℕ) : ℚ) / (maxPoints : ℚ))⌋ :=
    Int.floor_nonneg.mpr (by positivity)
  have hflt : ⌊(i : ℚ) * (((E - S : ℕ) : ℚ) / (maxPoints : ℚ))⌋ <
      ((E - S : ℕ) : ℤ) := by
    rw [Int.floor_lt]
    have hiw : (i : ℚ) * (((E - S : ℕ) : ℚ) / (maxPoints : ℚ)) <
        (maxPoints : ℚ) * (((E - S : ℕ) : ℚ) / (maxPoints : ℚ)) := by
      apply mul_lt_mul_of_pos_right _ hw0
      exact_mod_cast hi
    have heq : (maxPoints : ℚ) * (((E - S : ℕ) : ℚ) / (maxPoints : ℚ)) =
        ((E - S : ℕ) : ℚ) := by
      field_simp
    rw [heq] at hiw
    exact_mod_cast hiw
  rw [specBucketPoint]
  have hlt : S + (⌊(i : ℚ) * (((E - S : ℕ) : ℚ) / (maxPoints : ℚ))⌋).toNat <
      min (S + (⌊((i : ℚ) + 1) * (((E - S : ℕ) : ℚ) / (maxPoints : ℚ))⌋).toNat) E := by
    omega
  have hp1v : S + (⌊(i : ℚ) * (((E - S : ℕ) : ℚ) / (maxPoints : ℚ))⌋).toNat <
      values.length := by omega
  have hvs : specBucketValues values
      (S + (⌊(i : ℚ) * (((E - S : ℕ) : ℚ) / (maxPoints : ℚ))⌋).toNat)
      (min (S + (⌊((i : ℚ) + 1) * (((E - S : ℕ) : ℚ) / (maxPoints : ℚ))⌋).toNat) E) ≠
      [] := by
    rw [specBucketValues]
    intro hnil
    rw [List.filterMap_eq_nil_iff] at hnil
    have hmem : S + (⌊(i : ℚ) * (((E - S : ℕ) : ℚ) / (maxPoints : ℚ))⌋).toNat ∈
        List.range' (S + (⌊(i : ℚ) * (((E - S : ℕ) : ℚ) / (maxPoints : ℚ))⌋).toNat)
          (min (S + (⌊((i : ℚ) + 1) * (((E - S : ℕ) : ℚ) / (maxPoints : ℚ))⌋).toNat) E -
            (S + (⌊(i : ℚ) * (((E - S : ℕ) : ℚ) / (maxPoints : ℚ))⌋).toNat)) := by
      rw [List.mem_range'_1]
      omega
    have hval := hnil _ hmem
    rw [List.getD_eq_getElem values none hp1v] at hval
    exact hnn _ (List.getElem_mem _) hval
  have hlen0 : ¬ (specBucketValues values
      (S + (⌊(i : ℚ) * (((E - S : ℕ) : ℚ) / (maxPoints : ℚ))⌋).toNat)
      (min (S + (⌊((i : ℚ) + 1) * (((E - S : ℕ) : ℚ) / (maxPoints : ℚ))⌋).toNat) E)).length = 0 := by
    simpa [List.length_eq_zero] using hvs
  simp only [hlen0, if_false, Option.isSome_some]

/-- Key lemma: a query whose selected window exceeds `maxPoints` raw points
returns exactly the claim's bucket downsampling of the window. -/
theorem getColumnData_big_eq_spec
    (s : CSVDataService) (fileID columnName : String)
    (timeFrom timeTo : Option ℤ) (colsData : ColumnData)
    (values : List (Option ℚ))
    (hcd : alookup s.columnData fileID = some colsData)
    (hv : alookup colsData.values columnName = some values)
    (hb : maxPoints < endIndex colsData.timestamps timeTo -
      startIndex colsData.timestamps timeFrom) :
    GetColumnData s fileID columnName timeFrom timeTo =
      .ok (specDownsample colsData.timestamps values
        (startIndex colsData.timestamps timeFrom)
        (endIndex colsData.timestamps timeTo)) := by
  simp only [GetColumnData, hcd, hv]
  rw [if_neg (by omega), if_neg (by omega), downsamplePoints_eq_spec]

/-- Key lemma: when additionally every value of the column is non-NaN, the
downsampled result holds exactly `maxPoints` points. -/
theorem getColumnData_big_length
    (s : CSVDataService) (fileID columnName : String)
    (timeFrom timeTo : Option ℤ) (colsData : ColumnData)
    (values : List (Option ℚ))
    (hcd : alookup s.columnData fileID = some colsData)
    (hv : alookup colsData.values columnName = some values)
    (hb : maxPoints < endIndex colsData.timestamps timeTo -
      startIndex colsData.timestamps timeFrom)
    (hEv : endIndex colsData.timestamps timeTo ≤ values.length)
    (hnn : ∀ v ∈ values, v ≠ none) :
    (GetColumnData s fileID columnName timeFrom timeTo).map List.length =
      .ok maxPoints := by
  rw [getColumnData_big_eq_spec s fileID columnName timeFrom timeTo colsData
    values hcd hv hb]
  have hlen : (specDownsample colsData.timestamps values
      (startIndex colsData.timestamps timeFrom)
      (endIndex colsData.timestamps timeTo)).length = maxPoints := by
    rw [specDownsample, length_filterMap_eq_length, List.length_range]
    intro i hi
    exact specBucketPoint_isSome colsData.timestamps values _ _ i
      (List.mem_range.mp hi) hb hEv hnn
  show Except.ok (specDownsample colsData.timestamps values
      (startIndex colsData.timestamps timeFrom)
      (endIndex colsData.timestamps timeTo)).length = Except.ok maxPoints
  rw [hlen]

/-- C4: when the selected window holds more than 2,000 raw points,
`GetColumnData` partitions it into 2,000 equal-width buckets and emits, for
each bucket with at least one non-NaN value, one point averaging the bucket's
non-NaN values and stamped with the bucket's first raw timestamp (empty
buckets emit nothing); with all values non-NaN the output holds exactly 2,000
points — in particular for a full-range query over 2,500 rows. -/
theorem C4_downsampling_buckets :
    (∀ (s : CSVDataService) (fileID columnName : String)
        (timeFrom timeTo : Option ℤ) (colsData : ColumnData)
        (values : List (Option ℚ)),
      alookup s.columnData fileID = some colsData →
      alookup colsData.values columnName = some values →
      maxPoints < endIndex colsData.timestamps timeTo -
        startIndex colsData.timestamps timeFrom →
      GetColumnData s fileID columnName timeFrom timeTo =
        .ok (specDownsample colsData.timestamps values
          (startIndex colsData.timestamps timeFrom)
          (endIndex colsData.timestamps timeTo))) ∧
    (∀ (s : CSVDataService) (fileID columnName : String)
        (timeFrom timeTo : Option ℤ) (colsData : ColumnData)
        (values : List (Option ℚ)),
      alookup s.columnData fileID = some colsData →
      alookup colsData.values columnName = some values →
      maxPoints < endIndex colsData.timestamps timeTo -
        startIndex colsData.timestamps timeFrom →
      endIndex colsData.timestamps timeTo ≤ values.length →
      (∀ v ∈ values, v ≠ none) →
      (GetColumnData s fileID columnName timeFrom timeTo).map List.length =
        .ok maxPoints) :=
  ⟨fun s fileID columnName timeFrom timeTo colsData values hcd hv hb =>
    getColumnData_big_eq_spec s fileID columnName timeFrom timeTo colsData
      values hcd hv hb,
   fun s fileID columnName timeFrom timeTo colsData values hcd hv hb hEv hnn =>
    getColumnData_big_length s fileID columnName timeFrom timeTo colsData
      values hcd hv hb hEv hnn⟩

/-- Timestamps `0, …, n−1` as Unix seconds. -/
def bigTs (n : ℕ) : List ℤ := (List.range n).map (fun i : ℕ => (i : ℤ))

/-- `n` non-NaN values. -/
def bigVals (n : ℕ) : List (Option ℚ) := List.replicate n (some 1)

/-- Store holding one file with `n` rows of one column. -/
def bigStore (n : ℕ) : CSVDataService :=
  { files := [], columnData := [("f", ⟨bigTs n, [("c", bigVals n)]⟩)] }

/-- Metadata of the loaded `n`-row file of `bigStoreLoaded`. -/
def bigMeta (n : ℕ) : CSVFile :=
  { id := "f", name := "f", path := "p", columns := ["Timestamp", "c"],
    rowCount := n, minTime := ⟨0⟩, maxTime := ⟨((n - 1 : ℕ) : ℚ)⟩,
    isLoaded := true }

/-- Store holding one LOADED file (per the `isLoaded` flag of its metadata
entry) with `n` rows of one column. -/
def bigStoreLoaded (n : ℕ) : CSVDataService :=
  { files := [("f", bigMeta n)],
    columnData := [("f", ⟨bigTs n, [("c", bigVals n)]⟩)] }

/-- Helper: length of the concrete timestamp array. -/
theorem bigTs_length (n : ℕ) : (bigTs n).length = n := by
  rw [bigTs, List.length_map, List.length_range]

/-- Helper: length of the concrete value array. -/
theorem bigVals_length (n : ℕ) : (bigVals n).length = n := by
  rw [bigVals, List.length_replicate]

/-- Helper: bounds of the concrete timestamps. -/
theorem mem_bigTs_bounds {n : ℕ} {x : ℤ} (hx : x ∈ bigTs n) :
    0 ≤ x ∧ x < (n : ℤ) := by
  rw [bigTs, List.mem_map] at hx
  obtain ⟨i, hi, rfl⟩ := hx
  rw [List.mem_range] at hi
  omega

/-- Helper: every concrete value is the non-NaN value 1. -/
theorem mem_bigVals {n : ℕ} {v : Option ℚ} (hv : v ∈ bigVals n) :
    v = some 1 := by
  rw [bigVals] at hv
  exact List.eq_of_mem_replicate hv

/-- Witness for C4: a full-range query over 2,500 monotone rows with no NaN
values returns exactly 2,000 points. -/
theorem C4_downsampling_buckets_witness :
    (GetColumnData (bigStore 2500) "f" "c" none none).map List.length =
      .ok maxPoints := by
  refine C4_downsampling_buckets.2 (bigStore 2500) "f" "c" none none
    ⟨bigTs 2500, [("c", bigVals 2500)]⟩ (bigVals 2500)
    (by rw [bigStore]; rfl) (by rfl) ?_ ?_ ?_
  · have h1 : endIndex (bigTs 2500) none = (bigTs 2500).length := rfl
    have h2 : startIndex (bigTs 2500) none = 0 := rfl
    rw [h1, h2, bigTs_length, maxPoints]
    omega
  · have h1 : endIndex (bigTs 2500) none = (bigTs 2500).length := rfl
    rw [h1, bigTs_length, bigVals_length]
  · intro v hv
    rw [mem_bigVals hv]
    exact Option.some_ne_none 1

/-- C3 counterexample: a bounded query over a sorted 2,500-row file (bounds
matching the first and last stored timestamps) returns 2,000 downsampled
points, not the 2,500 raw (timestamp, value) pairs the claim asserts. -/
theorem C3_counterexample :
    alookup (bigStoreLoaded 2500).files "f" = some (bigMeta 2500) ∧
    (bigMeta 2500).isLoaded = true ∧
    List.Sorted (· ≤ ·) (bigTs 2500) ∧
    GetColumnData (bigStoreLoaded 2500) "f" "c" (some 0) (some 2499) ≠
      .ok (specRangePairs (bigTs 2500) (bigVals 2500) 0 2499) := by
  have hsorted : List.Sorted (· ≤ ·) (bigTs 2500) := by
    rw [bigTs]
    refine List.Pairwise.map _ (fun a b h => ?_) (List.pairwise_lt_range 2500)
    exact_mod_cast le_of_lt h
  refine ⟨by rw [bigStoreLoaded]; rfl, rfl, hsorted, ?_⟩
  intro heq
  have hS : startIndex (bigTs 2500) (some 0) = 0 := by
    rw [startIndex]
    apply sortSearch_eq_zero_of_forall
    intro x hx
    have := (mem_bigTs_bounds hx).1
    simp only [decide_eq_true_eq]
    omega
  have hE : endIndex (bigTs 2500) (some 2499) = 2500 := by
    rw [endIndex_some]
    have hlenall : sortSearch (fun x => (2499 : ℤ) < x) (bigTs 2500) =
        (bigTs 2500).length := by
      apply sortSearch_eq_length_of_forall
      intro x hx
      have := (mem_bigTs_bounds hx).2
      simp only [decide_eq_false_iff_not, not_lt]
      omega
    rw [hlenall, bigTs_length]
  have hlen : (GetColumnData (bigStoreLoaded 2500) "f" "c"
      (some 0) (some 2499)).map List.length = .ok maxPoints := by
    refine getColumnData_big_length (bigStoreLoaded 2500) "f" "c"
      (some 0) (some 2499)
      ⟨bigTs 2500, [("c", bigVals 2500)]⟩ (bigVals 2500)
      (by rw [bigStoreLoaded]; rfl) (by rfl) ?_ ?_ ?_
    · rw [hS, hE, maxPoints]
      omega
    · rw [hE, bigVals_length]
    · intro v hv
      rw [mem_bigVals hv]
      exact Option.some_ne_none 1
  have hspec : (specRangePairs (bigTs 2500) (bigVals 2500) 0 2499).length =
      2500 := by
    rw [specRangePairs, length_filterMap_eq_length, List.length_zip,
      bigTs_length, bigVals_length, Nat.min_self]
    intro p hp
    obtain ⟨hp1, hp2⟩ := List.of_mem_zip hp
    obtain ⟨hge, hlt⟩ := mem_bigTs_bounds hp1
    have hv2 := mem_bigVals hp2
    have hcond : (0 : ℤ) ≤ p.1 ∧ p.1 ≤ 2499 := by
      constructor
      · exact hge
      · omega
    rw [if_pos hcond, hv2]
    rfl
  rw [heq] at hlen
  have hfin : (specRangePairs (bigTs 2500) (bigVals 2500) 0 2499).length =
      maxPoints := by
    injection hlen
  rw [hspec, maxPoints] at hfin
  omega

/-! ## Embedding of the CSV export sink rotation (exporter.CSVExporter) -/

/-- Decimal digit characters, the building block of `fmt.Sprintf("%d", _)`. -/
def digitChar (d : ℕ) : Char :=
  match d with
  | 0 => '0' | 1 => '1' | 2 => '2' | 3 => '3' | 4 => '4'
  | 5 => '5' | 6 => '6' | 7 => '7' | 8 => '8' | _ => '9'

/-- Fueled decimal rendering (structural recursion so that concrete values
reduce); `decChars` supplies sufficient fuel. -/
def decCharsAux : ℕ → ℕ → List Char
  | 0, _ => []
  | fuel + 1, n =>
    if n < 10 then [digitChar n]
    else decCharsAux fuel (n / 10) ++ [digitChar (n % 10)]

/-- Decimal rendering of a natural number: the model of `%d`. -/
def decChars (n : ℕ) : List Char := decCharsAux (n + 1) n

/-- Value of a decimal digit character (parse-back helper). -/
def digitVal (c : Char) : ℕ :=
  match c with
  | '0' => 0 | '1' => 1 | '2' => 2 | '3' => 3 | '4' => 4
  | '5' => 5 | '6' => 6 | '7' => 7 | '8' => 8 | _ => 9

/-- Parse-back of a decimal digit string (helper to prove `decChars`
injective). -/
def decVal (l : List Char) : ℕ := l.foldl (fun a c => 10 * a + digitVal c) 0

/-- Helper: parsing a digit character returns the digit. -/
theorem digitVal_digitChar : ∀ d, d < 10 → digitVal (digitChar d) = d := by
  decide

/-- Helper: `decVal` is a left inverse of the fueled decimal rendering. -/
theorem decVal_decCharsAux : ∀ fuel n, n < fuel →
    decVal (decCharsAux fuel n) = n := by
  intro fuel
  induction fuel with
  | zero => intro n h; omega
  | succ fuel ih =>
    intro n h
    rw [decCharsAux]
    by_cases h10 : n < 10
    · rw [if_pos h10]
      show 10 * 0 + digitVal (digitChar n) = n
      rw [digitVal_digitChar n h10]
      omega
    · rw [if_neg h10, decVal, List.foldl_append]
      show 10 * decVal (decCharsAux fuel (n / 10)) +
        digitVal (digitChar (n % 10)) = n
      rw [ih (n / 10) (by omega),
        digitVal_digitChar (n % 10) (Nat.mod_lt n (by omega))]
      omega

/-- Helper: `decVal` is a left inverse of `decChars`. -/
theorem decVal_decChars (n : ℕ) : decVal (decChars n) = n :=
  decVal_decCharsAux (n + 1) n (Nat.lt_succ_self n)

/-- Model of `fmt.Sprintf("%d", n)`: decimal rendering as a string. -/
def natToString (n : ℕ) : String := ⟨decChars n⟩

/-- The sibling path `<base>_<n><ext>` probed by the rotation search. -/
def rotPath (base ext : String) (n : ℕ) : String :=
  base ++ "_" ++ natToString n ++ ext

/-- Model of `filepath.Ext`, scanning the path from the end: the extension
starts at the final dot of the final slash-separated element. -/
def extRevAcc : List Char → List Char → List Char
  | [], _ => []
  | c :: rest, acc =>
    if c = '.' then c :: acc
    else if c = '/' then []
    else extRevAcc rest (c :: acc)

/-- Model of `filepath.Ext`. -/
def goExt (s : String) : String := ⟨extRevAcc s.data.reverse []⟩

/-- Model of `strings.TrimSuffix`. -/
def goTrimSuffix (s sfx : String) : String :=
  if sfx.data.isSuffixOf s.data then
    ⟨s.data.take (s.data.length - sfx.data.length)⟩
  else s

/-- Insertion step of the `sort.Strings` model. -/
def insertAsc (x : String) : List String → List String
  | [] => [x]
  | y :: ys => if x < y then x :: y :: ys else y :: insertAsc x ys

/-- Model of `sort.Strings` (ascending insertion sort). -/
def sortStrings : List String → List String
  | [] => []
  | x :: xs => insertAsc x (sortStrings xs)

/-- The header row written by `writeHeader` for the given device and
interface column orders. -/
def headerRow (deviceOrder ifaceOrder : List String) : List String :=
  ["Timestamp", "CPU Utilization (%)", "CPU IO Wait (%)",
    "Memory Utilization (%)"] ++
  (deviceOrder.map (fun d =>
    ["Disk [" ++ d ++ "] Utilization (%)",
     "Disk [" ++ d ++ "] Average Wait (ms)",
     "Disk [" ++ d ++ "] Throughput (IOPS)"])).flatten ++
  ifaceOrder.map (fun i => "Network [" ++ i ++ "] Throughput (Mbps)")

/-- Model of the file system seen by the exporter: path ↦ rows written. -/
abbrev FileSys := List (String × List (List String))

/-- Embedding of the rotation-relevant state of `exporter.CSVExporter`,
together with the file system it acts on.  The buffered `csv.Writer` /
`bufio.Writer` pair is modelled as the list of rows written but not yet
flushed to the current file. -/
structure CSVExporter where
  basePath : String
  fileIndex : ℕ
  currentPath : String
  headerWritten : Bool
  currentSize : ℤ
  deviceOrder : List String
  ifaceOrder : List String
  buffer : List (List String)
  fs : FileSys
deriving DecidableEq, Repr

/-- Embedding of `CSVExporter.flush`: buffered rows reach the current
file. -/
def flushExporter (e : CSVExporter) : CSVExporter :=
  { e with
    fs := ainsert e.fs e.currentPath
      ((alookup e.fs e.currentPath).getD [] ++ e.buffer),
    buffer := [] }

/-- Embedding of `CSVExporter.writeHeader`: derives the sorted device and
interface orders from the snapshot and writes the header row (buffered). -/
def writeHeader (e : CSVExporter) (snapshot : Snapshot) : CSVExporter :=
  let deviceOrder := sortStrings (snapshot.disks.map Prod.fst)
  let ifaceOrder := sortStrings (snapshot.networks.map Prod.fst)
  { e with
    deviceOrder := deviceOrder
    ifaceOrder := ifaceOrder
    buffer := e.buffer ++ [headerRow deviceOrder ifaceOrder] }

/-- Embedding of the filename search loop of `rotateFile`: starting above
index `i`, the first suffix whose sibling path does not exist.  The Go loop
is unbounded; it is modelled with fuel, and `rotateFile` passes fuel
`fs.length + 1`, which suffices because at most `fs.length` paths exist. -/
def findRotIndex (fs : FileSys) (base ext : String) : ℕ → ℕ → ℕ
  | 0, i => i + 1
  | fuel + 1, i =>
    if (alookup fs (rotPath base ext (i + 1))).isNone then i + 1
    else findRotIndex fs base ext fuel (i + 1)

/-- Embedding of `CSVExporter.rotateFile`: flush and close the current file,
search for the first unused sibling filename, open it (`O_CREATE|O_TRUNC`),
and immediately write a fresh header derived from the snapshot.  I/O errors
are not modelled (the model file system cannot fail). -/
def rotateFile (e : CSVExporter) (snapshot : Snapshot) : CSVExporter :=
  let e1 := flushExporter e
  let ext := goExt e1.basePath
  let base := goTrimSuffix e1.basePath ext
  let idx := findRotIndex e1.fs base ext (e1.fs.length + 1) e1.fileIndex
  let newPath := rotPath base ext idx
  let e2 : CSVExporter :=
    { e1 with
      fileIndex := idx
      currentPath := newPath
      fs := ainsert e1.fs newPath []
      currentSize := 0
      headerWritten := false }
  let e3 := writeHeader e2 snapshot
  { e3 with headerWritten := true }

/-- Helper: distinct suffix indices give distinct sibling paths. -/
theorem rotPath_inj (base ext : String) {m n : ℕ}
    (h : rotPath base ext m = rotPath base ext n) : m = n := by
  rw [rotPath, rotPath] at h
  have hdata := congrArg String.data h
  simp only [String.data_append, List.append_assoc] at hdata
  have h1 : (natToString m).data ++ ext.data =
      (natToString n).data ++ ext.data :=
    List.append_cancel_left (List.append_cancel_left hdata)
  have h2 : (natToString m).data = (natToString n).data :=
    List.append_cancel_right h1
  have h3 : decChars m = decChars n := h2
  have := congrArg decVal h3
  rwa [decVal_decChars, decVal_decChars] at this

/-- Helper: a key that `alookup` finds is among the stored keys. -/
theorem mem_keys_of_alookup_isSome {α : Type} (l : List (String × α))
    (k : String) (h : (alookup l k).isSome) : k ∈ l.map Prod.fst := by
  induction l with
  | nil => simp [alookup] at h
  | cons p rest ih =>
    obtain ⟨k', v⟩ := p
    by_cases hk : k' = k
    · simp [hk]
    · rw [alookup, if_neg hk] at h
      simp [ih h]

/-- Helper: `alookup` finds an inserted binding. -/
theorem alookup_ainsert_self {α : Type} (l : List (String × α)) (k : String)
    (v : α) : alookup (ainsert l k v) k = some v := by
  induction l with
  | nil => simp [ainsert, alookup]
  | cons p rest ih =>
    obtain ⟨k', v'⟩ := p
    by_cases hk : k' = k
    · rw [ainsert, if_pos hk, alookup, if_pos rfl]
    · rw [ainsert, if_neg hk, alookup, if_neg hk]
      exact ih

/-- Helper: insertion leaves lookups of other keys unchanged. -/
theorem alookup_ainsert_ne {α : Type} (l : List (String × α)) (k k' : String)
    (v : α) (h : k' ≠ k) : alookup (ainsert l k v) k' = alookup l k' := by
  induction l with
  | nil =>
    show (if k = k' then some v else none) = none
    rw [if_neg (show ¬ k = k' from fun hh => h hh.symm)]
  | cons p rest ih =>
    obtain ⟨ka, va⟩ := p
    by_cases hk : ka = k
    · subst hk
      rw [ainsert, if_pos rfl, alookup, alookup,
        if_neg (show ¬ ka = k' from fun hh => h hh.symm),
        if_neg (show ¬ ka = k' from fun hh => h hh.symm)]
    · rw [ainsert, if_neg hk, alookup, alookup]
      by_cases hk' : ka = k'
      · rw [if_pos hk', if_pos hk']
      · rw [if_neg hk', if_neg hk']
        exact ih

/-- Helper: within sufficient fuel, the rotation search returns the first
free suffix index above the current one. -/
theorem findRotIndex_spec (fs : FileSys) (base ext : String) :
    ∀ (fuel i : ℕ),
      (∃ n, i < n ∧ n ≤ i + fuel ∧ alookup fs (rotPath base ext n) = none) →
      alookup fs (rotPath base ext (findRotIndex fs base ext fuel i)) = none ∧
      i < findRotIndex fs base ext fuel i ∧
      ∀ n, i < n → n < findRotIndex fs base ext fuel i →
        alookup fs (rotPath base ext n) ≠ none := by
  intro fuel
  induction fuel with
  | zero =>
    intro i h
    obtain ⟨n, h1, h2, _⟩ := h
    omega
  | succ fuel ih =>
    intro i h
    obtain ⟨n, h1, h2, h3⟩ := h
    rw [findRotIndex]
    by_cases hfree : (alookup fs (rotPath base ext (i + 1))).isNone
    · rw [if_pos hfree]
      refine ⟨Option.isNone_iff_eq_none.mp hfree, by omega, ?_⟩
      intro m hm1 hm2
      omega
    · rw [if_neg hfree]
      have hne1 : alookup fs (rotPath base ext (i + 1)) ≠ none := by
        intro hnone
        exact hfree (Option.isNone_iff_eq_none.mpr hnone)
      have hex : ∃ n, i + 1 < n ∧ n ≤ (i + 1) + fuel ∧
          alookup fs (rotPath base ext n) = none := by
        refine ⟨n, ?_, by omega, h3⟩
        rcases Nat.lt_or_ge (i + 1) n with hlt | hge
        · exact hlt
        · have hni : n = i + 1 := by omega
          rw [hni] at h3
          exact absurd h3 hne1
      obtain ⟨hfree', hlt', hmid'⟩ := ih (i + 1) hex
      refine ⟨hfree', by omega, ?_⟩
      intro m hm1 hm2
      by_cases hmi : m = i + 1
      · rw [hmi]
        exact hne1
      · exact hmid' m (by omega) hm2

/-- Helper: among the `fs.length + 1` sibling paths right above index `i`,
at least one does not exist — the paths are pairwise distinct and the file
system holds only `fs.length` entries. -/
theorem exists_free_index (fs : FileSys) (base ext : String) (i : ℕ) :
    ∃ n, i < n ∧ n ≤ i + (fs.length + 1) ∧
      alookup fs (rotPath base ext n) = none := by
  by_contra hc
  push_neg at hc
  have hsub : ((List.range (fs.length + 1)).map
      (fun k => rotPath base ext (i + k + 1))) ⊆ fs.map Prod.fst := by
    intro p hp
    rw [List.mem_map] at hp
    obtain ⟨k, hk, rfl⟩ := hp
    rw [List.mem_range] at hk
    apply mem_keys_of_alookup_isSome
    have hne := hc (i + k + 1) (by omega) (by omega)
    cases halo : alookup fs (rotPath base ext (i + k + 1)) with
    | none => exact absurd halo hne
    | some _ => rfl
  have hnd : ((List.range (fs.length + 1)).map
      (fun k => rotPath base ext (i + k + 1))).Nodup := by
    refine List.Nodup.map ?_ (List.nodup_range _)
    intro a b hab
    have := rotPath_inj base ext hab
    omega
  have hsp := (hnd.subperm hsub).length_le
  rw [List.length_map, List.length_range, List.length_map] at hsp
  omega

/-- Helper: the record produced by `rotateFile`, spelled out. -/
theorem rotateFile_eq (e : CSVExporter) (snapshot : Snapshot) :
    rotateFile e snapshot =
      { basePath := e.basePath
        fileIndex := findRotIndex (flushExporter e).fs
          (goTrimSuffix e.basePath (goExt e.basePath)) (goExt e.basePath)
          ((flushExporter e).fs.length + 1) e.fileIndex
        currentPath := rotPath (goTrimSuffix e.basePath (goExt e.basePath))
          (goExt e.basePath)
          (findRotIndex (flushExporter e).fs
            (goTrimSuffix e.basePath (goExt e.basePath)) (goExt e.basePath)
            ((flushExporter e).fs.length + 1) e.fileIndex)
        headerWritten := true
        currentSize := 0
        deviceOrder := sortStrings (snapshot.disks.map Prod.fst)
        ifaceOrder := sortStrings (snapshot.networks.map Prod.fst)
        buffer := [headerRow (sortStrings (snapshot.disks.map Prod.fst))
          (sortStrings (snapshot.networks.map Prod.fst))]
        fs := ainsert (flushExporter e).fs
          (rotPath (goTrimSuffix e.basePath (goExt e.basePath))
            (goExt e.basePath)
            (findRotIndex (flushExporter e).fs
              (goTrimSuffix e.basePath (goExt e.basePath)) (goExt e.basePath)
              ((flushExporter e).fs.length + 1) e.fileIndex)) [] } := rfl

/-- C7: rotation flushes and closes the current file, then repeatedly
increments the numeric suffix index and picks the first sibling path
`<base>_<n><ext>` that does not exist — so it never overwrites a
pre-existing rotated file, whose bytes stay unchanged — and immediately
writes a fresh header derived from the triggering snapshot into the new
file's writer. -/
theorem C7_rotation_fresh_path
    (e : CSVExporter) (snapshot : Snapshot) (base ext : String) (idx : ℕ)
    (hext : ext = goExt e.basePath)
    (hbase : base = goTrimSuffix e.basePath ext)
    (hidx : idx = findRotIndex (flushExporter e).fs base ext
      ((flushExporter e).fs.length + 1) e.fileIndex) :
    alookup (flushExporter e).fs (rotPath base ext idx) = none ∧
    e.fileIndex < idx ∧
    (∀ n, e.fileIndex < n → n < idx →
      alookup (flushExporter e).fs (rotPath base ext n) ≠ none) ∧
    (rotateFile e snapshot).currentPath = rotPath base ext idx ∧
    (rotateFile e snapshot).fileIndex = idx ∧
    (rotateFile e snapshot).headerWritten = true ∧
    (rotateFile e snapshot).buffer =
      [headerRow (sortStrings (snapshot.disks.map Prod.fst))
        (sortStrings (snapshot.networks.map Prod.fst))] ∧
    alookup (rotateFile e snapshot).fs (rotPath base ext idx) = some [] ∧
    (∀ p, p ≠ rotPath base ext idx → p ≠ e.currentPath →
      alookup (rotateFile e snapshot).fs p = alookup e.fs p) ∧
    alookup (rotateFile e snapshot).fs e.currentPath =
      some ((alookup e.fs e.currentPath).getD [] ++ e.buffer) := by
  subst hext
  subst hbase
  subst hidx
  obtain ⟨hfree, hlt, hmid⟩ := findRotIndex_spec (flushExporter e).fs
    (goTrimSuffix e.basePath (goExt e.basePath)) (goExt e.basePath)
    ((flushExporter e).fs.length + 1) e.fileIndex
    (exists_free_index (flushExporter e).fs
      (goTrimSuffix e.basePath (goExt e.basePath)) (goExt e.basePath)
      e.fileIndex)
  have hcurr : alookup (flushExporter e).fs e.currentPath =
      some ((alookup e.fs e.currentPath).getD [] ++ e.buffer) := by
    rw [flushExporter]
    exact alookup_ainsert_self e.fs e.currentPath _
  have hne : e.currentPath ≠ rotPath
      (goTrimSuffix e.basePath (goExt e.basePath)) (goExt e.basePath)
      (findRotIndex (flushExporter e).fs
        (goTrimSuffix e.basePath (goExt e.basePath)) (goExt e.basePath)
        ((flushExporter e).fs.length + 1) e.fileIndex) := by
    intro hp
    rw [hp] at hcurr
    rw [hcurr] at hfree
    exact Option.some_ne_none _ hfree
  refine ⟨hfree, hlt, hmid, ?_, ?_, ?_, ?_, ?_, ?_, ?_⟩
  · rw [rotateFile_eq]
  · rw [rotateFile_eq]
  · rw [rotateFile_eq]
  · rw [rotateFile_eq]
  · rw [rotateFile_eq]
    exact alookup_ainsert_self _ _ _
  · intro p hp1 hp2
    rw [rotateFile_eq]
    show alookup (ainsert (flushExporter e).fs _ []) p = alookup e.fs p
    rw [alookup_ainsert_ne _ _ _ _ hp1]
    rw [flushExporter]
    exact alookup_ainsert_ne e.fs e.currentPath p _ hp2
  · rw [rotateFile_eq]
    show alookup (ainsert (flushExporter e).fs _ []) e.currentPath =
      some ((alookup e.fs e.currentPath).getD [] ++ e.buffer)
    rw [alookup_ainsert_ne _ _ _ _ hne]
    exact hcurr

/-- Concrete snapshot with one disk and one interface for the rotation
example. -/
def snapEx : Snapshot :=
  { timestamp := ⟨5⟩, cpu := 10, cpuWait := 1, memory := 20,
    disks := [("sda", ⟨10, 1, 100⟩)], networks := [("eth0", ⟨1000000⟩)] }

/-- Concrete exporter whose base path is `out.csv` with a pre-existing
rotated file `out_1.csv`. -/
def exporterEx : CSVExporter :=
  { basePath := "out.csv", fileIndex := 0, currentPath := "out.csv",
    headerWritten := true, currentSize := 200,
    deviceOrder := ["sda"], ifaceOrder := ["eth0"],
    buffer := [["r1"]],
    fs := [("out.csv", [["h0"]]), ("out_1.csv", [["old"]])] }

/-- Witness for C7: with `out_1.csv` pre-existing, rotation opens
`out_2.csv`, leaves the bytes of `out_1.csv` unchanged, and buffers a fresh
header derived from the snapshot. -/
theorem C7_rotation_fresh_path_witness :
    alookup (flushExporter exporterEx).fs (rotPath "out" ".csv" 2) = none ∧
    (rotateFile exporterEx snapEx).currentPath = "out_2.csv" ∧
    alookup (rotateFile exporterEx snapEx).fs "out_1.csv" = some [["old"]] ∧
    (rotateFile exporterEx snapEx).buffer =
      [headerRow (sortStrings (snapEx.disks.map Prod.fst))
        (sortStrings (snapEx.networks.map Prod.fst))] := by
  have h := C7_rotation_fresh_path exporterEx snapEx "out" ".csv" 2
    (by decide) (by decide) (by decide)
  refine ⟨h.1, ?_, ?_, h.2.2.2.2.2.2.1⟩
  · rw [h.2.2.2.1]
    decide
  · have hother := h.2.2.2.2.2.2.2.2.1 "out_1.csv" (by decide) (by decide)
    rw [hother]
    decide

end Unostat
